import Mathlib

/-!
# ernie-go-sheets: today's row of a training-plan sheet

A shallow embedding of `main` of `main.go` (lines 127-248): the loop that
resolves the four named columns from row 0, looks for the rows whose Date
cell is today's date, and the printing of the row that was kept.

* Cells are `String`s (the source asserts `cellValue.(string)` on every cell).
* Standard output is the returned `String`; `debug` and `log.Fatalf` write to
  standard error only and are not part of it.
* The three ways the Go program stops early are the constructors of `Failure`.
* Library code that is not in the repository (`unicode.ToLower` above ASCII,
  `strconv.ParseFloat`) is the parameter `Deps`.
-/

namespace ErnieSheets

/-! ## Library functions -/

/-- Library functions called by `main` whose code is not part of the repository. -/
structure Deps where
  /-- The rune `unicode.ToLower` returns for a rune above the ASCII range. -/
  toLowerTable : Char → Char
  /-- The value of `strconv.ParseFloat(s, 64)`, `none` when its `err` is not nil. -/
  parseFloat : String → Option Float

/-- The rune `unicode.ToLower(r)`: within ASCII the letters `A`..`Z` are moved
to `a`..`z` and every other rune is kept; above ASCII the case table decides. -/
def toLowerRune (deps : Deps) (r : Char) : Char :=
  if r.toNat ≤ 127 then
    if 65 ≤ r.toNat ∧ r.toNat ≤ 90 then Char.ofNat (r.toNat + 32) else r
  else deps.toLowerTable r

/-- The string `strings.ToLower(s)`: every rune mapped by `unicode.ToLower`. -/
def ToLower (deps : Deps) (s : String) : String :=
  ⟨s.data.map (toLowerRune deps)⟩

/-- The string `strings.ReplaceAll(s, "\n", " ")`: each line feed becomes one space. -/
def ReplaceAll (s : String) : String :=
  ⟨s.data.map fun c => if c = '\n' then ' ' else c⟩

/-! ## The clock -/

/-- The local month (1..12) and day of month (1..31) that `time.Now()` reads. -/
structure Clock where
  month : Nat
  day : Nat

/-- The decimal digit `k` as a rune. -/
def digit (k : Nat) : Char := Char.ofNat (48 + k % 10)

/-- A number below 100 in two digits, zero padded: the layout elements `01` and `02`. -/
def pad2 (n : Nat) : String := ⟨[digit (n / 10), digit n]⟩

/-- A number below 100 without padding: the layout elements `1` and `2`. -/
def plain (n : Nat) : String :=
  if n < 10 then ⟨[digit n]⟩ else ⟨[digit (n / 10), digit n]⟩

/-- The text `time.Now().Format("01/02")`. -/
def formatPadded (now : Clock) : String := pad2 now.month ++ "/" ++ pad2 now.day

/-- The text `time.Now().Format("1/2")`. -/
def formatPlain (now : Clock) : String := plain now.month ++ "/" ++ plain now.day

/-! ## The variables of `main` -/

/-- The local variables of `main` that live across the loop over the rows. -/
structure Vars where
  myNotesCol : Nat
  foundMyNotesCol : Bool
  planNotesCol : Nat
  foundPlanNotesCol : Bool
  dateCol : Nat
  foundDateCol : Bool
  distanceCol : Nat
  foundDistanceCol : Bool
  plannedDistance : Float
  myNotes : String
  planNotes : String
  foundMyNotes : Bool
  foundPlanNotes : Bool
  foundPlannedDistance : Bool
  colNames : List String
  todayRow : List String

/-- The values the variables are declared with (lines 131-150). -/
def Vars.init : Vars :=
  { myNotesCol := 0, foundMyNotesCol := false, planNotesCol := 0, foundPlanNotesCol := false,
    dateCol := 0, foundDateCol := false, distanceCol := 0, foundDistanceCol := false,
    plannedDistance := 0.0, myNotes := "", planNotes := "",
    foundMyNotes := false, foundPlanNotes := false, foundPlannedDistance := false,
    colNames := [], todayRow := [] }

/-- How a run ends without reaching the printing of the row. -/
inductive Failure where
  /-- The call `log.Fatalf("Did not find either date or distance column")`, line 207. -/
  | config : Failure
  /-- The call `log.Fatalf("Error parsing planned Distance (%v), %v", ...)`, line 191,
  with the text that did not parse. -/
  | parse : String → Failure
  /-- The Go runtime panic `index out of range` of an expression `row[i]`. -/
  | indexOutOfRange : Failure
  deriving DecidableEq, Repr

deriving instance DecidableEq for Except

/-! ## The loop over the cells of a row (lines 154-184) -/

/-- The body of `if rowIndex == 0` (lines 159-176) for one cell of row 0, after
`cellValue` was overwritten with its line feeds replaced. -/
def headerCell (deps : Deps) (v : Vars) (colIndex : Nat) (cellValue : String) : Vars :=
  let cellValue := ReplaceAll cellValue
  let cellValueLower := ToLower deps cellValue
  let v := { v with colNames := v.colNames ++ [cellValue] }
  if cellValueLower = ToLower deps "Date" then
    { v with dateCol := colIndex, foundDateCol := true }
  else if cellValueLower = ToLower deps "Distance Planned" then
    { v with distanceCol := colIndex, foundDistanceCol := true }
  else if cellValueLower = ToLower deps "Plan Notes" then
    { v with planNotesCol := colIndex, foundPlanNotesCol := true }
  else if cellValueLower = ToLower deps "My Notes" then
    { v with myNotesCol := colIndex, foundMyNotesCol := true }
  else v

/-- The loop `for colIndex, cellValue := range row` from column `colIndex` on:
the variables and `rowOfStrings` after the remaining cells. -/
def cellLoop (deps : Deps) (rowIndex : Nat) :
    Nat → List String → Vars → List String → Vars × List String
  | _, [], v, rowOfStrings => (v, rowOfStrings)
  | colIndex, cellValue :: rest, v, rowOfStrings =>
    cellLoop deps rowIndex (colIndex + 1) rest
      (if rowIndex = 0 then headerCell deps v colIndex cellValue else v)
      (rowOfStrings ++ [cellValue])

/-! ## The body of the loop over the rows (lines 152-209) -/

/-- The assignment `myNotes = row[myNotesCol]` under `if foundMyNotesCol` (lines 195-198). -/
def readMyNotes (row : List String) (v : Vars) : Except Failure Vars :=
  if v.foundMyNotesCol then
    match row[v.myNotesCol]? with
    | none => .error .indexOutOfRange
    | some cell => .ok { v with myNotes := cell, foundMyNotes := true }
  else .ok v

/-- The assignment `planNotes = row[planNotesCol]` under `if foundPlanNotesCol`
(lines 199-202). -/
def readPlanNotes (row : List String) (v : Vars) : Except Failure Vars :=
  if v.foundPlanNotesCol then
    match row[v.planNotesCol]? with
    | none => .error .indexOutOfRange
    | some cell => .ok { v with planNotes := cell, foundPlanNotes := true }
  else .ok v

/-- The statements after the loop over the cells (lines 185-208), for the row
`row` whose copy is `rowOfStrings`. -/
def checkRow (deps : Deps) (today today_alt : String) (row rowOfStrings : List String)
    (v : Vars) : Except Failure Vars :=
  if v.foundDateCol && v.foundDistanceCol then
    match row[v.dateCol]? with
    | none => .error .indexOutOfRange
    | some dateCell =>
      if dateCell = today ∨ dateCell = today_alt then
        let v := { v with todayRow := rowOfStrings }
        match row[v.distanceCol]? with
        | none => .error .indexOutOfRange
        | some distanceCell =>
          match deps.parseFloat distanceCell with
          | none => .error (.parse distanceCell)
          | some f =>
            let v := { v with plannedDistance := f, foundPlannedDistance := true }
            match readMyNotes row v with
            | .error e => .error e
            | .ok v => readPlanNotes row v
      else .ok v
  else .error .config

/-- One iteration of `for rowIndex, row := range resp.Values`. -/
def rowBody (deps : Deps) (today today_alt : String) (rowIndex : Nat) (row : List String)
    (v : Vars) : Except Failure Vars :=
  let r := cellLoop deps rowIndex 0 row v []
  checkRow deps today today_alt row r.2 r.1

/-- The loop `for rowIndex, row := range resp.Values` from row `rowIndex` on. -/
def rowLoop (deps : Deps) (today today_alt : String) :
    Nat → List (List String) → Vars → Except Failure Vars
  | _, [], v => .ok v
  | rowIndex, row :: rest, v =>
    match rowBody deps today today_alt rowIndex row v with
    | .error e => .error e
    | .ok v => rowLoop deps today today_alt (rowIndex + 1) rest v

/-! ## Printing the row (lines 228-248) -/

/-- The body of `for index, field := range colNames` (lines 235-245): what one
header field prints. -/
def printField (format : String) (todayRow : List String) (index : Nat) (field : String) :
    String :=
  match todayRow[index]? with
  | none => ""
  | some cell =>
    if format = "json" then
      "\"" ++ field ++ "\": \"" ++ cell ++ "\"\n" ++
        (if (index : Int) < (todayRow.length : Int) - 1 then "," else "")
    else field ++ ": " ++ cell ++ "\n"

/-- The loop `for index, field := range colNames` from index `index` on. -/
def printFields (format : String) (todayRow : List String) : Nat → List String → String
  | _, [] => ""
  | index, field :: rest =>
    printField format todayRow index field ++ printFields format todayRow (index + 1) rest

/-- The block `if fullRowMode` (lines 228-248): everything it prints. -/
def fullRow (format : String) (colNames todayRow : List String) : String :=
  (if format = "json" then "\x7b\n" else "") ++ printFields format todayRow 0 colNames ++
    (if format = "json" then "\x7d\n" else "")

/-! ## The program -/

/-- The part of `main` from line 127 on, for the rows `values` of the sheet and
the two texts of today: standard output of a run that reaches its end, or the
way it stopped. `summaryMode` is the constant `false`, so only the block
`if fullRowMode` prints. -/
def process (deps : Deps) (format today today_alt : String) (values : List (List String)) :
    Except Failure String :=
  if values.length = 0 then .ok "No data found.\n"
  else
    match rowLoop deps today today_alt 0 values Vars.init with
    | .error e => .error e
    | .ok v => .ok (fullRow format v.colNames v.todayRow)

/-- The program `main` on the rows `values`, with the flag `-format` and the
clock read on one calendar day by both calls of `time.Now()`. -/
def main (deps : Deps) (format : String) (now : Clock) (values : List (List String)) :
    Except Failure String :=
  process deps format (formatPadded now) (formatPlain now) values

/-! ## A library instance for concrete runs -/

/-- The number written by a list of decimal digits. -/
def digitsValue (ds : List Char) : Nat :=
  ds.foldl (fun n c => 10 * n + (c.toNat - 48)) 0

/-- A parser for the plain decimal texts `ddd` and `ddd.ddd`, all of which
`strconv.ParseFloat` accepts too; every other text is refused. -/
def decimalParse (s : String) : Option Float :=
  let whole := s.data.takeWhile Char.isDigit
  match whole, s.data.dropWhile Char.isDigit with
  | [], _ => none
  | _ :: _, [] => some (OfScientific.ofScientific (digitsValue whole) false 0)
  | _ :: _, c :: frac =>
    if c = '.' ∧ frac ≠ [] ∧ frac.all Char.isDigit = true then
      some (OfScientific.ofScientific (digitsValue (whole ++ frac)) true frac.length)
    else none

/-- A library for running the program on concrete sheets: runes above ASCII
are left as they are and only plain decimal texts parse. The concrete runs
below are on ASCII sheets and parse only plain decimal texts and the text
`abc`, which `strconv.ParseFloat` refuses as well, so on them it gives what the
Go library gives. The general statements hold for every library. -/
def sampleDeps : Deps :=
  { toLowerTable := fun r => r, parseFloat := decimalParse }

/-! ## Vocabulary of the statements -/

/-- The four fields the program recognizes in row 0. -/
inductive Field where
  | date | distance | planNotes | myNotes
  deriving DecidableEq, Repr

/-- The name a field is compared with (the literals of lines 164-173). -/
def Field.name : Field → String
  | .date => "Date"
  | .distance => "Distance Planned"
  | .planNotes => "Plan Notes"
  | .myNotes => "My Notes"

/-- The column variable of a field. -/
def Vars.col (v : Vars) : Field → Nat
  | .date => v.dateCol
  | .distance => v.distanceCol
  | .planNotes => v.planNotesCol
  | .myNotes => v.myNotesCol

/-- The found flag of a field. -/
def Vars.found (v : Vars) : Field → Bool
  | .date => v.foundDateCol
  | .distance => v.foundDistanceCol
  | .planNotes => v.foundPlanNotesCol
  | .myNotes => v.foundMyNotesCol

/-- The comparison the program makes between a cell of row 0 and a field name
(lines 156-157 and 164-173). -/
def headerMatches (deps : Deps) (f : Field) (cell : String) : Prop :=
  ToLower deps (ReplaceAll cell) = ToLower deps f.name

instance (deps : Deps) (f : Field) (cell : String) : Decidable (headerMatches deps f cell) := by
  unfold headerMatches; infer_instance

/-- The comparison of raw lower-cased text: the cell, lower-cased, is the
lower-cased field name. -/
def rawMatches (deps : Deps) (f : Field) (cell : String) : Prop :=
  ToLower deps cell = ToLower deps f.name

instance (deps : Deps) (f : Field) (cell : String) : Decidable (rawMatches deps f cell) := by
  unfold rawMatches; infer_instance

/-- The variables after the loop over the cells of row 0. -/
def resolveHeader (deps : Deps) (header : List String) : Vars :=
  (cellLoop deps 0 0 header Vars.init []).1

/-- The variables of `main` that only row 0 assigns. -/
def Vars.columns (v : Vars) :
    (Nat × Bool) × (Nat × Bool) × (Nat × Bool) × (Nat × Bool) × List String :=
  ((v.dateCol, v.foundDateCol), (v.distanceCol, v.foundDistanceCol),
    (v.planNotesCol, v.foundPlanNotesCol), (v.myNotesCol, v.foundMyNotesCol), v.colNames)

/-- The Date cell of a row is one of the two texts of today (the test of line 187). -/
def qualifies (today today_alt : String) (v : Vars) (row : List String) : Bool :=
  match row[v.dateCol]? with
  | none => false
  | some dateCell => decide (dateCell = today ∨ dateCell = today_alt)

/-- The Distance Planned cell of the row is a text that parses. -/
def parses (deps : Deps) (v : Vars) (row : List String) : Prop :=
  ∃ cell, row[v.distanceCol]? = some cell ∧ deps.parseFloat cell ≠ none

instance (deps : Deps) (v : Vars) (row : List String) : Decidable (parses deps v row) :=
  decidable_of_iff (((row[v.distanceCol]?).bind deps.parseFloat).isSome = true) (by
    unfold parses
    cases row[v.distanceCol]? with
    | none => simp
    | some cell => cases h : deps.parseFloat cell <;> simp [h])

/-- The scan reads only cells the row has and the Distance Planned text it
parses is a number: the row has a Date cell and, when that cell is today, a
Distance Planned cell that parses and a cell at each resolved notes column. -/
def scannable (deps : Deps) (today today_alt : String) (v : Vars) (row : List String) : Prop :=
  v.dateCol < row.length ∧
    (qualifies today today_alt v row = true →
      parses deps v row ∧
      (v.foundMyNotesCol = true → v.myNotesCol < row.length) ∧
      (v.foundPlanNotesCol = true → v.planNotesCol < row.length))

instance (deps : Deps) (today today_alt : String) (v : Vars) (row : List String) :
    Decidable (scannable deps today today_alt v row) := by
  unfold scannable; infer_instance

/-- The row has a cell at the Date and Distance Planned columns and at each
resolved notes column. -/
def complete (v : Vars) (row : List String) : Prop :=
  v.dateCol < row.length ∧ v.distanceCol < row.length ∧
    (v.foundMyNotesCol = true → v.myNotesCol < row.length) ∧
    (v.foundPlanNotesCol = true → v.planNotesCol < row.length)

instance (v : Vars) (row : List String) : Decidable (complete v row) := by
  unfold complete; infer_instance

/-- The Distance Planned cell of the row is a text that does not parse. -/
def unparseable (deps : Deps) (v : Vars) (row : List String) : Prop :=
  ∃ cell, row[v.distanceCol]? = some cell ∧ deps.parseFloat cell = none

instance (deps : Deps) (v : Vars) (row : List String) : Decidable (unparseable deps v row) :=
  decidable_of_iff (((row[v.distanceCol]?).map fun cell => (deps.parseFloat cell).isNone) = some true)
    (by
      unfold unparseable
      cases row[v.distanceCol]? with
      | none => simp
      | some cell => cases h : deps.parseFloat cell <;> simp [h])

/-- The texts of a list one after the other. -/
def concatAll : List String → String
  | [] => ""
  | a :: rest => a ++ concatAll rest

/-- The texts of a list one after the other with `sep` between each two. -/
def joinWith (sep : String) : List String → String
  | [] => ""
  | [a] => a
  | a :: b :: rest => a ++ sep ++ joinWith sep (b :: rest)

/-- The line text mode prints for a header cell and a cell of the row. -/
def textLine (name cell : String) : String := ReplaceAll name ++ ": " ++ cell ++ "\n"

/-- The pair JSON mode prints for a field name and a cell of the row. -/
def jsonPair (field cell : String) : String := "\"" ++ field ++ "\": \"" ++ cell ++ "\"\n"

/-- Two runes that are equal or are the upper-case and the lower-case form of
one ASCII letter. -/
def caseVariant (x y : Char) : Bool :=
  x == y ||
    (decide (65 ≤ x.toNat ∧ x.toNat ≤ 90) && y.toNat == x.toNat + 32) ||
    (decide (65 ≤ y.toNat ∧ y.toNat ≤ 90) && x.toNat == y.toNat + 32)

/-- Two rune sequences of one length whose runes differ only in ASCII letter case. -/
def caseVariants : List Char → List Char → Bool
  | [], [] => true
  | x :: xs, y :: ys => caseVariant x y && caseVariants xs ys
  | _, _ => false

/-- Two header rows of one length whose cells differ only in ASCII letter case. -/
def headerVariants : List String → List String → Bool
  | [], [] => true
  | a :: as, b :: bs => caseVariants a.data b.data && headerVariants as bs
  | _, _ => false

/-- The texts the `fmt.Printf` calls of one turn of the printing loop write in
JSON mode (lines 237 and 240), one entry for each call. -/
def jsonCallsField (todayRow : List String) (index : Nat) (field : String) : List String :=
  match todayRow[index]? with
  | none => []
  | some cell =>
    jsonPair field cell ::
      (if (index : Int) < (todayRow.length : Int) - 1 then [","] else [])

/-- The texts the `fmt.Printf` calls of the printing loop write in JSON mode
from index `index` on, one entry for each call. -/
def jsonCalls (todayRow : List String) : Nat → List String → List String
  | _, [] => []
  | index, field :: rest =>
    jsonCallsField todayRow index field ++ jsonCalls todayRow (index + 1) rest

/-! ## The library on ASCII text -/

theorem toLower_date (deps : Deps) : ToLower deps "Date" = "date" := rfl

theorem toLower_distance (deps : Deps) :
    ToLower deps "Distance Planned" = "distance planned" := rfl

theorem toLower_planNotes (deps : Deps) : ToLower deps "Plan Notes" = "plan notes" := rfl

theorem toLower_myNotes (deps : Deps) : ToLower deps "My Notes" = "my notes" := rfl

theorem toLower_name (deps : Deps) (f : Field) :
    ToLower deps f.name =
      match f with
      | .date => "date"
      | .distance => "distance planned"
      | .planNotes => "plan notes"
      | .myNotes => "my notes" := by
  cases f <;> rfl

/-- Two different fields are never matched by one cell. -/
theorem headerMatches_unique (deps : Deps) (f g : Field) (cell : String)
    (hf : headerMatches deps f cell) (hg : headerMatches deps g cell) : f = g := by
  unfold headerMatches at hf hg
  rw [toLower_name] at hf hg
  rw [hf] at hg
  cases f <;> cases g <;> first | rfl | (exact absurd hg (by decide))

/-! ## The loop over the cells -/

theorem headerCell_found (deps : Deps) (v : Vars) (c : Nat) (cell : String) (f : Field) :
    (headerCell deps v c cell).found f =
      if headerMatches deps f cell then true else v.found f := by
  have hd := toLower_date deps
  have hdi := toLower_distance deps
  have hp := toLower_planNotes deps
  have hm := toLower_myNotes deps
  by_cases h : headerMatches deps f cell
  · rw [if_pos h]
    unfold headerMatches at h
    rw [toLower_name] at h
    cases f <;> simp only [] at h <;> simp [headerCell, Vars.found, h, hd, hdi, hp, hm]
  · rw [if_neg h]
    unfold headerMatches at h
    rw [toLower_name] at h
    unfold headerCell
    cases f <;> simp only [] at h <;> simp only [hd, hdi, hp, hm] <;> split_ifs <;> rfl

theorem headerCell_col (deps : Deps) (v : Vars) (c : Nat) (cell : String) (f : Field) :
    (headerCell deps v c cell).col f =
      if headerMatches deps f cell then c else v.col f := by
  have hd := toLower_date deps
  have hdi := toLower_distance deps
  have hp := toLower_planNotes deps
  have hm := toLower_myNotes deps
  by_cases h : headerMatches deps f cell
  · rw [if_pos h]
    unfold headerMatches at h
    rw [toLower_name] at h
    cases f <;> simp only [] at h <;> simp [headerCell, Vars.col, h, hd, hdi, hp, hm]
  · rw [if_neg h]
    unfold headerMatches at h
    rw [toLower_name] at h
    unfold headerCell
    cases f <;> simp only [] at h <;> simp only [hd, hdi, hp, hm] <;> split_ifs <;> rfl

theorem headerCell_colNames (deps : Deps) (v : Vars) (c : Nat) (cell : String) :
    (headerCell deps v c cell).colNames = v.colNames ++ [ReplaceAll cell] := by
  unfold headerCell
  simp only []
  split_ifs <;> rfl

theorem headerCell_todayRow (deps : Deps) (v : Vars) (c : Nat) (cell : String) :
    (headerCell deps v c cell).todayRow = v.todayRow := by
  unfold headerCell
  simp only []
  split_ifs <;> rfl

theorem cellLoop_snd (deps : Deps) (rowIndex : Nat) (cells : List String) :
    ∀ (c : Nat) (v : Vars) (acc : List String),
      (cellLoop deps rowIndex c cells v acc).2 = acc ++ cells := by
  induction cells with
  | nil => intro c v acc; simp [cellLoop]
  | cons x rest ih => intro c v acc; simp [cellLoop, ih]

/-- Below row 0 the loop over the cells assigns none of the variables. -/
theorem cellLoop_data (deps : Deps) (rowIndex : Nat) (h : rowIndex ≠ 0) (cells : List String) :
    ∀ (c : Nat) (v : Vars) (acc : List String),
      (cellLoop deps rowIndex c cells v acc).1 = v := by
  induction cells with
  | nil => intro c v acc; simp [cellLoop]
  | cons x rest ih => intro c v acc; simp [cellLoop, ih, h]

theorem cellLoop_colNames (deps : Deps) (cells : List String) :
    ∀ (c : Nat) (v : Vars) (acc : List String),
      (cellLoop deps 0 c cells v acc).1.colNames = v.colNames ++ cells.map ReplaceAll := by
  induction cells with
  | nil => intro c v acc; simp [cellLoop]
  | cons x rest ih => intro c v acc; simp [cellLoop, ih, headerCell_colNames]

theorem cellLoop_todayRow (deps : Deps) (cells : List String) :
    ∀ (c : Nat) (v : Vars) (acc : List String),
      (cellLoop deps 0 c cells v acc).1.todayRow = v.todayRow := by
  induction cells with
  | nil => intro c v acc; simp [cellLoop]
  | cons x rest ih => intro c v acc; simp [cellLoop, ih, headerCell_todayRow]

/-- What the loop over the cells of row 0 leaves in the variables of a field:
they are untouched when no cell matches the field, and otherwise hold the
index of the last matching cell. -/
theorem cellLoop_field (deps : Deps) (f : Field) (cells : List String) :
    ∀ (c : Nat) (v : Vars) (acc : List String),
      ((∀ cell ∈ cells, ¬ headerMatches deps f cell) ∧
        (cellLoop deps 0 c cells v acc).1.found f = v.found f ∧
        (cellLoop deps 0 c cells v acc).1.col f = v.col f) ∨
      (∃ i cell, cells[i]? = some cell ∧ headerMatches deps f cell ∧
        (∀ j other, i < j → cells[j]? = some other → ¬ headerMatches deps f other) ∧
        (cellLoop deps 0 c cells v acc).1.found f = true ∧
        (cellLoop deps 0 c cells v acc).1.col f = c + i) := by
  induction cells with
  | nil => intro c v acc; left; simp [cellLoop]
  | cons x rest ih =>
    intro c v acc
    have step : cellLoop deps 0 c (x :: rest) v acc =
        cellLoop deps 0 (c + 1) rest (headerCell deps v c x) (acc ++ [x]) := by
      simp [cellLoop]
    rw [step]
    rcases ih (c + 1) (headerCell deps v c x) (acc ++ [x]) with ⟨hno, hf, hc⟩ | ⟨i, cell, hi, hm, hlast, hf, hc⟩
    · by_cases hx : headerMatches deps f x
      · right
        refine ⟨0, x, by simp, hx, ?_, ?_, ?_⟩
        · intro j other hj hget
          cases j with
          | zero => omega
          | succ k =>
            simp only [List.getElem?_cons_succ] at hget
            exact hno other (List.getElem?_mem hget)
        · rw [hf, headerCell_found, if_pos hx]
        · rw [hc, headerCell_col, if_pos hx]; rfl
      · left
        refine ⟨?_, ?_, ?_⟩
        · intro cell hmem
          rcases List.mem_cons.1 hmem with rfl | hmem
          · exact hx
          · exact hno cell hmem
        · rw [hf, headerCell_found, if_neg hx]
        · rw [hc, headerCell_col, if_neg hx]
    · right
      refine ⟨i + 1, cell, by simpa using hi, hm, ?_, hf, by rw [hc]; omega⟩
      intro j other hj hget
      cases j with
      | zero => omega
      | succ k =>
        simp only [List.getElem?_cons_succ] at hget
        exact hlast k other (by omega) hget

/-- A field is found exactly when some cell of row 0 matches it. -/
theorem resolveHeader_found_iff (deps : Deps) (header : List String) (f : Field) :
    (resolveHeader deps header).found f = true ↔ ∃ cell ∈ header, headerMatches deps f cell := by
  unfold resolveHeader
  rcases cellLoop_field deps f header 0 Vars.init [] with ⟨hno, hf, _⟩ | ⟨i, cell, hi, hm, _, hf, _⟩
  · rw [hf]
    constructor
    · intro h; cases f <;> simp [Vars.found, Vars.init] at h
    · rintro ⟨cell, hmem, hm⟩; exact absurd hm (hno cell hmem)
  · rw [hf]
    exact ⟨fun _ => ⟨cell, List.getElem?_mem hi, hm⟩, fun _ => rfl⟩

/-- The column of a found field is the index of a cell of row 0 that matches
the field, and no cell to its right matches it. -/
theorem resolveHeader_col (deps : Deps) (header : List String) (f : Field)
    (h : (resolveHeader deps header).found f = true) :
    ∃ cell, header[(resolveHeader deps header).col f]? = some cell ∧
      headerMatches deps f cell ∧
      ∀ j other, (resolveHeader deps header).col f < j → header[j]? = some other →
        ¬ headerMatches deps f other := by
  unfold resolveHeader at h ⊢
  rcases cellLoop_field deps f header 0 Vars.init [] with ⟨_, hf, _⟩ | ⟨i, cell, hi, hm, hlast, _, hc⟩
  · rw [hf] at h; cases f <;> simp [Vars.found, Vars.init] at h
  · rw [hc, Nat.zero_add]
    exact ⟨cell, hi, hm, hlast⟩

theorem resolveHeader_colNames (deps : Deps) (header : List String) :
    (resolveHeader deps header).colNames = header.map ReplaceAll := by
  unfold resolveHeader
  rw [cellLoop_colNames]; rfl

theorem resolveHeader_todayRow (deps : Deps) (header : List String) :
    (resolveHeader deps header).todayRow = [] := by
  unfold resolveHeader
  rw [cellLoop_todayRow]; rfl

/-! ## Row 0 is never today's row -/

/-- A digit is kept by the replacement of line feeds and by lower-casing, and
it is not the letter `d`. -/
theorem digit_lower_ne (deps : Deps) (k : Nat) :
    toLowerRune deps (if digit k = '\n' then ' ' else digit k) ≠ 'd' := by
  have hk : k % 10 < 10 := Nat.mod_lt _ (by decide)
  unfold digit
  generalize k % 10 = r at hk
  interval_cases r <;> simp [toLowerRune]

theorem lower_head_ne (deps : Deps) (k : Nat) (rest : List Char) :
    ToLower deps (ReplaceAll ⟨digit k :: rest⟩) ≠ "date" := by
  intro h
  have h2 := congrArg String.data h
  simp only [ToLower, ReplaceAll, List.map_cons] at h2
  have h3 : toLowerRune deps (if digit k = '\n' then ' ' else digit k) = 'd' := by
    have := List.head_eq_of_cons_eq h2
    exact this
  exact digit_lower_ne deps k h3

theorem formatPadded_data (now : Clock) :
    formatPadded now = ⟨digit (now.month / 10) ::
      [digit now.month, '/', digit (now.day / 10), digit now.day]⟩ := rfl

theorem formatPlain_data (now : Clock) :
    ∃ k rest, formatPlain now = ⟨digit k :: rest⟩ := by
  unfold formatPlain plain
  by_cases h : now.month < 10
  · rw [if_pos h]; exact ⟨now.month, _, rfl⟩
  · rw [if_neg h]; exact ⟨now.month / 10, _, rfl⟩

/-- A cell that row 0 resolves as the Date column is neither text of today. -/
theorem header_date_not_today (deps : Deps) (now : Clock) (cell : String)
    (h : headerMatches deps .date cell) :
    ¬ (cell = formatPadded now ∨ cell = formatPlain now) := by
  unfold headerMatches at h
  rw [toLower_name] at h
  rintro (rfl | rfl)
  · rw [formatPadded_data] at h
    exact lower_head_ne deps _ _ h
  · obtain ⟨k, rest, hk⟩ := formatPlain_data now
    rw [hk] at h
    exact lower_head_ne deps _ _ h

/-! ## The statements after the loop over the cells -/

theorem checkRow_unresolved (deps : Deps) (today today_alt : String)
    (row ros : List String) (v : Vars)
    (h : ¬ (v.foundDateCol = true ∧ v.foundDistanceCol = true)) :
    checkRow deps today today_alt row ros v = .error .config := by
  unfold checkRow
  rw [if_neg]
  simpa using h

/-- A row whose Date cell is not today leaves the variables as they are. -/
theorem checkRow_skip (deps : Deps) (today today_alt : String)
    (row ros : List String) (v : Vars)
    (hd : v.foundDateCol = true) (hdi : v.foundDistanceCol = true)
    (hlen : v.dateCol < row.length) (hq : qualifies today today_alt v row = false) :
    checkRow deps today today_alt row ros v = .ok v := by
  unfold checkRow
  unfold qualifies at hq
  rw [if_pos (by simp [hd, hdi])]
  rw [List.getElem?_eq_getElem hlen] at hq ⊢
  simp only [decide_eq_false_iff_not] at hq
  simp only [if_neg hq]

/-- A row whose Date cell is today and whose Distance Planned text does not
parse stops the run. -/
theorem checkRow_parse_error (deps : Deps) (today today_alt : String)
    (row ros : List String) (v : Vars)
    (hd : v.foundDateCol = true) (hdi : v.foundDistanceCol = true)
    (hq : qualifies today today_alt v row = true)
    (cell : String) (hcell : row[v.distanceCol]? = some cell)
    (hp : deps.parseFloat cell = none) :
    checkRow deps today today_alt row ros v = .error (.parse cell) := by
  unfold checkRow
  unfold qualifies at hq
  rw [if_pos (by simp [hd, hdi])]
  cases hdc : row[v.dateCol]? with
  | none => rw [hdc] at hq; simp at hq
  | some dateCell =>
    rw [hdc] at hq
    simp only [decide_eq_true_eq] at hq
    simp only [if_pos hq, hcell, hp]

/-- A row whose Date cell is today, whose Distance Planned text parses and
which has its notes cells becomes `todayRow`; the column variables stay. -/
theorem checkRow_select (deps : Deps) (today today_alt : String)
    (row ros : List String) (v : Vars)
    (hd : v.foundDateCol = true) (hdi : v.foundDistanceCol = true)
    (hq : qualifies today today_alt v row = true)
    (hp : parses deps v row)
    (hm : v.foundMyNotesCol = true → v.myNotesCol < row.length)
    (hn : v.foundPlanNotesCol = true → v.planNotesCol < row.length) :
    ∃ w, checkRow deps today today_alt row ros v = .ok w ∧ w.columns = v.columns ∧
      w.todayRow = ros := by
  obtain ⟨cell, hcell, hpc⟩ := hp
  obtain ⟨f, hf⟩ := Option.ne_none_iff_exists'.1 hpc
  unfold checkRow
  unfold qualifies at hq
  rw [if_pos (by simp [hd, hdi])]
  cases hdc : row[v.dateCol]? with
  | none => rw [hdc] at hq; simp at hq
  | some dateCell =>
    rw [hdc] at hq
    simp only [decide_eq_true_eq] at hq
    simp only [if_pos hq, hcell, hf]
    by_cases h1 : v.foundMyNotesCol = true <;> by_cases h2 : v.foundPlanNotesCol = true
    · simp [readMyNotes, readPlanNotes, h1, h2, List.getElem?_eq_getElem (hm h1),
        List.getElem?_eq_getElem (hn h2), Vars.columns]
    · simp [readMyNotes, readPlanNotes, h1, h2, List.getElem?_eq_getElem (hm h1), Vars.columns]
    · simp [readMyNotes, readPlanNotes, h1, h2, List.getElem?_eq_getElem (hn h2), Vars.columns]
    · simp [readMyNotes, readPlanNotes, h1, h2, Vars.columns]

/-! ## The loop over the rows -/

theorem rowBody_data (deps : Deps) (today today_alt : String) (rowIndex : Nat)
    (h : rowIndex ≠ 0) (row : List String) (v : Vars) :
    rowBody deps today today_alt rowIndex row v = checkRow deps today today_alt row row v := by
  unfold rowBody
  simp only [cellLoop_data deps rowIndex h, cellLoop_snd, List.nil_append]

theorem rowBody_header (deps : Deps) (today today_alt : String) (header : List String) :
    rowBody deps today today_alt 0 header Vars.init =
      checkRow deps today today_alt header header (resolveHeader deps header) := by
  unfold rowBody resolveHeader
  simp only [cellLoop_snd, List.nil_append]

theorem qualifies_congr (today today_alt : String) (v w : Vars) (row : List String)
    (h : v.columns = w.columns) :
    qualifies today today_alt v row = qualifies today today_alt w row := by
  simp only [Vars.columns, Prod.mk.injEq] at h
  unfold qualifies
  rw [h.1.1]

theorem scannable_congr (deps : Deps) (today today_alt : String) (v w : Vars)
    (row : List String) (h : v.columns = w.columns)
    (hs : scannable deps today today_alt w row) : scannable deps today today_alt v row := by
  have hq := qualifies_congr today today_alt v w row h
  simp only [Vars.columns, Prod.mk.injEq] at h
  unfold scannable parses at hs ⊢
  rw [hq, h.1.1, h.2.1.1, h.2.2.1.1, h.2.2.1.2, h.2.2.2.1.1, h.2.2.2.1.2]
  exact hs

theorem found_of_columns (v w : Vars) (h : v.columns = w.columns) :
    v.foundDateCol = w.foundDateCol ∧ v.foundDistanceCol = w.foundDistanceCol ∧
      v.distanceCol = w.distanceCol ∧ v.colNames = w.colNames := by
  simp only [Vars.columns, Prod.mk.injEq] at h
  exact ⟨h.1.2, h.2.1.2, h.2.1.1, h.2.2.2.2⟩

/-- One scannable data row: the variables after it. -/
theorem rowBody_scan (deps : Deps) (today today_alt : String) (v : Vars)
    (hd : v.foundDateCol = true) (hdi : v.foundDistanceCol = true)
    (rowIndex : Nat) (hri : rowIndex ≠ 0) (row : List String)
    (hs : scannable deps today today_alt v row) :
    ∃ w, rowBody deps today today_alt rowIndex row v = .ok w ∧ w.columns = v.columns ∧
      w.todayRow = if qualifies today today_alt v row = true then row else v.todayRow := by
  rw [rowBody_data deps today today_alt rowIndex hri]
  by_cases hq : qualifies today today_alt v row = true
  · obtain ⟨hp, hm, hn⟩ := hs.2 hq
    obtain ⟨w, hw, hc, ht⟩ := checkRow_select deps today today_alt row row v hd hdi hq hp hm hn
    exact ⟨w, hw, hc, by rw [ht, if_pos hq]⟩
  · have hq2 : qualifies today today_alt v row = false := by simpa using hq
    exact ⟨v, checkRow_skip deps today today_alt row row v hd hdi hs.1 hq2, rfl, by rw [if_neg hq]⟩

/-- A run over scannable data rows reaches its end, keeps the column variables
and leaves in `todayRow` the last row whose Date cell is today. -/
theorem rowLoop_scan (deps : Deps) (today today_alt : String) (v0 : Vars)
    (hd : v0.foundDateCol = true) (hdi : v0.foundDistanceCol = true) (rows : List (List String)) :
    ∀ (rowIndex : Nat) (v : Vars), rowIndex ≠ 0 → v.columns = v0.columns →
      (∀ row ∈ rows, scannable deps today today_alt v0 row) →
      ∃ w, rowLoop deps today today_alt rowIndex rows v = .ok w ∧ w.columns = v0.columns ∧
        w.todayRow = ((rows.filter (qualifies today today_alt v0)).getLast?).getD v.todayRow := by
  induction rows with
  | nil => intro rowIndex v _ hc _; exact ⟨v, rfl, hc, rfl⟩
  | cons row rest ih =>
    intro rowIndex v hri hc hall
    have hf := found_of_columns v v0 hc
    have hs : scannable deps today today_alt v row :=
      scannable_congr deps today today_alt v v0 row hc (hall row (List.mem_cons_self _ _))
    obtain ⟨w1, hw1, hc1, ht1⟩ := rowBody_scan deps today today_alt v
      (by rw [hf.1]; exact hd) (by rw [hf.2.1]; exact hdi) rowIndex hri row hs
    obtain ⟨w, hw, hcw, htw⟩ := ih (rowIndex + 1) w1 (by omega) (hc1.trans hc)
      (fun r hr => hall r (List.mem_cons_of_mem _ hr))
    refine ⟨w, ?_, hcw, ?_⟩
    · simp only [rowLoop, hw1, hw]
    · rw [htw, ht1, qualifies_congr today today_alt v v0 row hc]
      by_cases hq : qualifies today today_alt v0 row = true
      · rw [if_pos hq, List.filter_cons_of_pos hq, List.getLast?_cons]
        simp
      · rw [if_neg hq, List.filter_cons_of_neg hq]

/-- A run over complete data rows stops with a parse failure as soon as a row
whose Date cell is today has a Distance Planned text that does not parse. -/
theorem rowLoop_parse_error (deps : Deps) (today today_alt : String) (v0 : Vars)
    (hd : v0.foundDateCol = true) (hdi : v0.foundDistanceCol = true) (rows : List (List String)) :
    ∀ (rowIndex : Nat) (v : Vars), rowIndex ≠ 0 → v.columns = v0.columns →
      (∀ row ∈ rows, complete v0 row) →
      (∃ row ∈ rows, qualifies today today_alt v0 row = true ∧ unparseable deps v0 row) →
      ∃ text, rowLoop deps today today_alt rowIndex rows v = .error (.parse text) := by
  induction rows with
  | nil => intro rowIndex v _ _ _ h; obtain ⟨row, hmem, _⟩ := h; cases hmem
  | cons row rest ih =>
    intro rowIndex v hri hc hall hbad
    have hf := found_of_columns v v0 hc
    have hvd : v.foundDateCol = true := by rw [hf.1]; exact hd
    have hvdi : v.foundDistanceCol = true := by rw [hf.2.1]; exact hdi
    have hcomp := hall row (List.mem_cons_self _ _)
    by_cases hq : qualifies today today_alt v0 row = true
    · by_cases hu : unparseable deps v0 row
      · obtain ⟨cell, hcell, hp⟩ := hu
        refine ⟨cell, ?_⟩
        have := checkRow_parse_error deps today today_alt row row v hvd hvdi
          (by rw [qualifies_congr today today_alt v v0 row hc]; exact hq) cell
          (by rw [hf.2.2.1]; exact hcell) hp
        simp only [rowLoop, rowBody_data deps today today_alt rowIndex hri, this]
      · have hs : scannable deps today today_alt v0 row := by
          refine ⟨hcomp.1, fun _ => ⟨?_, hcomp.2.2.1, hcomp.2.2.2⟩⟩
          have hlt : v0.distanceCol < row.length := hcomp.2.1
          refine ⟨row[v0.distanceCol], List.getElem?_eq_getElem hlt, ?_⟩
          intro hnone
          exact hu ⟨_, List.getElem?_eq_getElem hcomp.2.1, hnone⟩
        obtain ⟨w1, hw1, hc1, _⟩ := rowBody_scan deps today today_alt v hvd hvdi rowIndex hri row
          (scannable_congr deps today today_alt v v0 row hc hs)
        obtain ⟨brow, hmem, hbq, hbu⟩ := hbad
        rcases List.mem_cons.1 hmem with rfl | hmem
        · exact absurd hbu hu
        · obtain ⟨text, ht⟩ := ih (rowIndex + 1) w1 (by omega) (hc1.trans hc)
            (fun r hr => hall r (List.mem_cons_of_mem _ hr)) ⟨brow, hmem, hbq, hbu⟩
          exact ⟨text, by simp only [rowLoop, hw1, ht]⟩
    · have hs : scannable deps today today_alt v0 row := ⟨hcomp.1, fun h => absurd h hq⟩
      obtain ⟨w1, hw1, hc1, _⟩ := rowBody_scan deps today today_alt v hvd hvdi rowIndex hri row
        (scannable_congr deps today today_alt v v0 row hc hs)
      obtain ⟨brow, hmem, hbq, hbu⟩ := hbad
      rcases List.mem_cons.1 hmem with rfl | hmem
      · exact absurd hbq hq
      · obtain ⟨text, ht⟩ := ih (rowIndex + 1) w1 (by omega) (hc1.trans hc)
          (fun r hr => hall r (List.mem_cons_of_mem _ hr)) ⟨brow, hmem, hbq, hbu⟩
        exact ⟨text, by simp only [rowLoop, hw1, ht]⟩

/-! ## The program on a sheet with a header row -/

/-- Row 0 itself passes the test of line 187 as a row that is not today's. -/
theorem rowBody_header_resolved (deps : Deps) (now : Clock) (header : List String)
    (hd : (resolveHeader deps header).foundDateCol = true)
    (hdi : (resolveHeader deps header).foundDistanceCol = true) :
    rowBody deps (formatPadded now) (formatPlain now) 0 header Vars.init =
      .ok (resolveHeader deps header) := by
  rw [rowBody_header]
  obtain ⟨cell, hcell, hm, _⟩ := resolveHeader_col deps header .date hd
  have hcell2 : header[(resolveHeader deps header).dateCol]? = some cell := hcell
  have hlen : (resolveHeader deps header).dateCol < header.length := by
    by_contra hge
    rw [List.getElem?_eq_none (by omega)] at hcell2
    cases hcell2
  apply checkRow_skip _ _ _ _ _ _ hd hdi hlen
  unfold qualifies
  rw [hcell2]
  simpa using header_date_not_today deps now cell hm

/-- A header row that does not resolve both mandatory columns stops the run at row 0. -/
theorem main_unresolved (deps : Deps) (format : String) (now : Clock)
    (header : List String) (rows : List (List String))
    (h : ¬ ((resolveHeader deps header).foundDateCol = true ∧
      (resolveHeader deps header).foundDistanceCol = true)) :
    main deps format now (header :: rows) = .error .config := by
  unfold main process
  rw [if_neg (by simp)]
  simp only [rowLoop, rowBody_header, checkRow_unresolved _ _ _ _ _ _ h]

/-- With both mandatory columns resolved the run is the scan of the data rows,
started from the variables row 0 leaves, followed by the printing. -/
theorem main_resolved (deps : Deps) (format : String) (now : Clock)
    (header : List String) (rows : List (List String))
    (hd : (resolveHeader deps header).foundDateCol = true)
    (hdi : (resolveHeader deps header).foundDistanceCol = true) :
    main deps format now (header :: rows) =
      match rowLoop deps (formatPadded now) (formatPlain now) 1 rows
          (resolveHeader deps header) with
      | .error e => .error e
      | .ok v => .ok (fullRow format v.colNames v.todayRow) := by
  unfold main process
  rw [if_neg (by simp)]
  simp only [rowLoop, rowBody_header_resolved deps now header hd hdi, Nat.zero_add]

/-- A run over scannable data rows prints the last row whose Date cell is
today, or the empty row when there is none. -/
theorem main_scan (deps : Deps) (format : String) (now : Clock)
    (header : List String) (rows : List (List String))
    (hd : (resolveHeader deps header).foundDateCol = true)
    (hdi : (resolveHeader deps header).foundDistanceCol = true)
    (hs : ∀ row ∈ rows, scannable deps (formatPadded now) (formatPlain now)
      (resolveHeader deps header) row) :
    main deps format now (header :: rows) =
      .ok (fullRow format (header.map ReplaceAll)
        (((rows.filter (qualifies (formatPadded now) (formatPlain now)
          (resolveHeader deps header))).getLast?).getD [])) := by
  rw [main_resolved deps format now header rows hd hdi]
  obtain ⟨w, hw, hc, ht⟩ := rowLoop_scan deps (formatPadded now) (formatPlain now)
    (resolveHeader deps header) hd hdi rows 1 (resolveHeader deps header) (by decide) rfl hs
  rw [hw]
  simp only [ht, (found_of_columns _ _ hc).2.2.2, resolveHeader_colNames,
    resolveHeader_todayRow]

/-! ## The printing -/

theorem printFields_nil (format : String) (colNames : List String) :
    ∀ index, printFields format [] index colNames = "" := by
  induction colNames with
  | nil => intro index; rfl
  | cons field rest ih => intro index; simp [printFields, printField, ih]

/-- With no row kept, text mode prints nothing and JSON mode the two braces. -/
theorem fullRow_nil (format : String) (colNames : List String) :
    fullRow format colNames [] = if format = "json" then "\x7b\n\x7d\n" else "" := by
  unfold fullRow
  rw [printFields_nil]
  by_cases h : format = "json"
  · simp only [if_pos h]; rfl
  · simp only [if_neg h]; rfl

theorem printFields_past (format : String) (todayRow colNames : List String) :
    ∀ index, todayRow.length ≤ index → printFields format todayRow index colNames = "" := by
  induction colNames with
  | nil => intro index _; rfl
  | cons field rest ih =>
    intro index h
    simp [printFields, printField, List.getElem?_eq_none h, ih (index + 1) (by omega)]

theorem printFields_text (todayRow colNames : List String) :
    ∀ index, printFields "text" todayRow index colNames =
      concatAll (List.zipWith (fun field cell => field ++ ": " ++ cell ++ "\n")
        colNames (todayRow.drop index)) := by
  induction colNames with
  | nil => intro index; rfl
  | cons field rest ih =>
    intro index
    by_cases h : index < todayRow.length
    · rw [List.drop_eq_getElem_cons h]
      simp only [printFields, printField, List.getElem?_eq_getElem h, ih, List.zipWith_cons_cons,
        concatAll]
      rw [if_neg (by decide)]
    · have hle : todayRow.length ≤ index := by omega
      rw [List.drop_eq_nil_of_le hle]
      rw [printFields_past _ _ _ _ hle]
      simp [concatAll]

/-- With a row no longer than the header, JSON mode prints the pairs with a
comma between each two and none after the last. -/
theorem printFields_json (todayRow colNames : List String) :
    ∀ index, todayRow.length ≤ index + colNames.length →
      printFields "json" todayRow index colNames =
        joinWith "," (List.zipWith jsonPair colNames (todayRow.drop index)) := by
  induction colNames with
  | nil => intro index _; rfl
  | cons field rest ih =>
    intro index hlen
    by_cases h : index < todayRow.length
    · have ih2 := ih (index + 1) (by simp only [List.length_cons] at hlen; omega)
      rw [List.drop_eq_getElem_cons h]
      simp only [printFields, printField, List.getElem?_eq_getElem h, ih2,
        List.zipWith_cons_cons]
      rw [if_pos True.intro]
      by_cases h1 : index + 1 < todayRow.length
      · rw [if_pos (by omega)]
        rw [List.drop_eq_getElem_cons h1]
        cases rest with
        | nil => simp only [List.length_cons, List.length_nil] at hlen; omega
        | cons g rest2 =>
          simp only [List.zipWith_cons_cons, joinWith, jsonPair, String.append_assoc]
      · rw [if_neg (by omega)]
        rw [List.drop_eq_nil_of_le (by omega)]
        simp [joinWith, jsonPair]
    · have hle : todayRow.length ≤ index := by omega
      rw [List.drop_eq_nil_of_le hle, printFields_past _ _ _ _ hle]
      simp [joinWith]

/-! ## The two texts of today -/

/-- For a month and a day of one digit, a text that pads only one of the two
is neither text of today. -/
theorem mixed_padding_ne (now : Clock) (hm : now.month < 10) (hday : now.day < 10) :
    plain now.month ++ "/" ++ pad2 now.day ≠ formatPadded now ∧
      plain now.month ++ "/" ++ pad2 now.day ≠ formatPlain now ∧
      pad2 now.month ++ "/" ++ plain now.day ≠ formatPadded now ∧
      pad2 now.month ++ "/" ++ plain now.day ≠ formatPlain now := by
  have hlen : ∀ a b : String, a.length ≠ b.length → a ≠ b := by
    intro a b h hab; exact h (by rw [hab])
  have hpad : ∀ n, (pad2 n).length = 2 := fun _ => rfl
  have hplain : ∀ n, n < 10 → (plain n).length = 1 := by
    intro n hn; unfold plain; rw [if_pos hn]; rfl
  have hslash : ("/" : String).length = 1 := rfl
  refine ⟨hlen _ _ ?_, hlen _ _ ?_, hlen _ _ ?_, hlen _ _ ?_⟩ <;>
    simp only [formatPadded, formatPlain, String.length_append, hpad, hplain _ hm,
      hplain _ hday, hslash] <;> decide

/-! ## Which row is printed -/

/-- C1, as stated, fails: on a sheet with two rows dated today (one in each
text of January 15) the run prints the second of them, not the first. -/
theorem first_match_not_printed :
    main sampleDeps "text" ⟨1, 15⟩
        [["Date", "Distance Planned", "Plan Notes"],
         ["01/15", "5", "first"],
         ["1/15", "6", "second"]]
      = .ok "Date: 1/15\nDistance Planned: 6\nPlan Notes: second\n" ∧
    main sampleDeps "text" ⟨1, 15⟩
        [["Date", "Distance Planned", "Plan Notes"],
         ["01/15", "5", "first"],
         ["1/15", "6", "second"]]
      ≠ .ok "Date: 01/15\nDistance Planned: 5\nPlan Notes: first\n" := by
  decide

/-- C1, amended: with both mandatory columns resolved and every data row
scannable, the row printed is the last row in grid order whose Date cell is
one of the two texts of today; the rows before it do not change the output. -/
theorem last_match_printed (deps : Deps) (format : String) (now : Clock)
    (header : List String) (before : List (List String)) (row : List String)
    (after : List (List String))
    (hd : (resolveHeader deps header).foundDateCol = true)
    (hdi : (resolveHeader deps header).foundDistanceCol = true)
    (hs : ∀ r ∈ before ++ row :: after, scannable deps (formatPadded now) (formatPlain now)
      (resolveHeader deps header) r)
    (hrow : qualifies (formatPadded now) (formatPlain now) (resolveHeader deps header) row = true)
    (hafter : ∀ r ∈ after,
      qualifies (formatPadded now) (formatPlain now) (resolveHeader deps header) r = false) :
    main deps format now (header :: (before ++ row :: after)) =
      .ok (fullRow format (header.map ReplaceAll) row) := by
  rw [main_scan deps format now header _ hd hdi hs]
  have hnone : after.filter
      (qualifies (formatPadded now) (formatPlain now) (resolveHeader deps header)) = [] := by
    rw [List.filter_eq_nil_iff]
    intro r hr
    rw [hafter r hr]
    decide
  rw [List.filter_append, List.filter_cons_of_pos hrow, hnone, List.getLast?_append]
  rfl

/-- The amended statement on a sheet with two rows dated January 15 and one
dated January 16, in JSON mode. -/
theorem last_match_printed_witness :
    main sampleDeps "json" ⟨1, 15⟩
        (["Date", "Distance Planned", "Plan Notes"] ::
          ([["01/15", "5", "first"]] ++ ["1/15", "6", "second"] :: [["01/16", "7"]]))
      = .ok (fullRow "json" (["Date", "Distance Planned", "Plan Notes"].map ReplaceAll)
          ["1/15", "6", "second"]) :=
  last_match_printed sampleDeps "json" ⟨1, 15⟩ ["Date", "Distance Planned", "Plan Notes"]
    [["01/15", "5", "first"]] ["1/15", "6", "second"] [["01/16", "7"]]
    (by decide) (by decide) (by decide) (by decide) (by decide)

/-- C2: the code at a failing input. A data row with no cell at the Date
column stops the run with the panic `index out of range` (first sheet), and so
does a row dated today with no cell at the Distance Planned column (second
sheet); neither row is passed over as a row that does not match. -/
theorem short_row_panics (deps : Deps) :
    main deps "text" ⟨1, 15⟩
        [["Plan Notes", "Date", "Distance Planned"], ["rest day"], ["run", "01/15", "5"]]
      = .error .indexOutOfRange ∧
    main deps "text" ⟨1, 15⟩
        [["Date", "Distance Planned"], ["01/15"], ["1/15", "5"]]
      = .error .indexOutOfRange := by
  constructor <;> rfl

/-! ## Text mode -/

/-- C3: in text mode, for every header row and every kept row, the output is
the lines `<name>: <cell>` of the first `min (len header) (len row)` columns in
header order, the name being the header cell with its line feeds replaced by
spaces and the cell being unchanged; this holds for the header and row of the
end-to-end scenario. -/
theorem text_mode_lines (deps : Deps) (header row : List String) :
    fullRow "text" (resolveHeader deps header).colNames row =
        concatAll (List.zipWith textLine header row) ∧
      (List.zipWith textLine header row).length = min header.length row.length ∧
      fullRow "text"
          (resolveHeader deps ["Date", "Distance Planned", "Plan Notes", "My Notes"]).colNames
          ["01/15", "5.5", "Easy run", "Felt good"] =
        "Date: 01/15\nDistance Planned: 5.5\nPlan Notes: Easy run\nMy Notes: Felt good\n" := by
  refine ⟨?_, List.length_zipWith _ _ _, rfl⟩
  rw [resolveHeader_colNames]
  unfold fullRow
  rw [if_neg (by decide), if_neg (by decide), printFields_text, List.drop_zero,
    List.zipWith_map_left]
  simp only [String.empty_append, String.append_empty]
  rfl

/-! ## The commas of JSON mode -/

/-- C4, as stated, fails: on a sheet whose header row has four fields (the
last two are names the program does not recognize) and whose row dated today
has two cells, the run prints the second pair, the last one printed, followed
by the closing brace and not by a comma, although its index 1 is not the last
index 3 of the header. -/
theorem short_row_no_trailing_comma :
    main sampleDeps "json" ⟨1, 15⟩
        [["Date", "Distance Planned", "Pace", "Weather"], ["01/15", "5.5"]]
      = .ok "\x7b\n\"Date\": \"01/15\"\n,\"Distance Planned\": \"5.5\"\n\x7d\n" ∧
    main sampleDeps "json" ⟨1, 15⟩
        [["Date", "Distance Planned", "Pace", "Weather"], ["01/15", "5.5"]]
      ≠ .ok "\x7b\n\"Date\": \"01/15\"\n,\"Distance Planned\": \"5.5\"\n,\x7d\n" := by
  decide

/-- C4, amended: in JSON mode a comma follows the pair printed for index `i`
exactly when `i < len row - 1`, the length being that of the kept row and not
of the header; so on every sheet with both mandatory columns resolved and
scannable data rows, when the row that is printed (the last one dated today)
has fewer cells than the header, the run prints the pairs with a comma between
each two and the closing brace right after the last pair. -/
theorem json_comma_by_row (deps : Deps) (now : Clock)
    (header : List String) (before : List (List String)) (row : List String)
    (after : List (List String))
    (hd : (resolveHeader deps header).foundDateCol = true)
    (hdi : (resolveHeader deps header).foundDistanceCol = true)
    (hs : ∀ r ∈ before ++ row :: after, scannable deps (formatPadded now) (formatPlain now)
      (resolveHeader deps header) r)
    (hrow : qualifies (formatPadded now) (formatPlain now) (resolveHeader deps header) row = true)
    (hafter : ∀ r ∈ after,
      qualifies (formatPadded now) (formatPlain now) (resolveHeader deps header) r = false)
    (h : row.length < header.length) :
    main deps "json" now (header :: (before ++ row :: after)) =
        .ok ("\x7b\n" ++
          joinWith "," (List.zipWith (fun name cell => jsonPair (ReplaceAll name) cell)
            header row) ++ "\x7d\n") ∧
      (∀ (i : Nat) (field cell : String), row[i]? = some cell →
        printField "json" row i field =
          jsonPair field cell ++ (if i + 1 < row.length then "," else "")) := by
  constructor
  · rw [main_scan deps "json" now header _ hd hdi hs]
    have hnone : after.filter
        (qualifies (formatPadded now) (formatPlain now) (resolveHeader deps header)) = [] := by
      rw [List.filter_eq_nil_iff]
      intro r hr
      rw [hafter r hr]
      decide
    rw [List.filter_append, List.filter_cons_of_pos hrow, hnone, List.getLast?_append]
    have hkept : (([row].getLast?).or
        (before.filter (qualifies (formatPadded now) (formatPlain now)
          (resolveHeader deps header))).getLast?).getD [] = row := rfl
    rw [hkept]
    unfold fullRow
    rw [if_pos rfl, if_pos rfl,
      printFields_json row (header.map ReplaceAll) 0 (by rw [List.length_map]; omega),
      List.drop_zero, List.zipWith_map_left]
  · intro i field cell hcell
    unfold printField
    rw [hcell]
    simp only [if_pos True.intro, jsonPair]
    by_cases hi : i + 1 < row.length
    · rw [if_pos hi, if_pos (by omega)]
    · rw [if_neg hi, if_neg (by omega)]

/-- The amended statement on January 15 for a header row of four fields, the
last two not recognized, and a row dated today of two cells after a row dated
today of three cells; the text it gives has one comma, between the two pairs. -/
theorem json_comma_by_row_witness :
    (main sampleDeps "json" ⟨1, 15⟩
        (["Date", "Distance Planned", "Pace", "Weather"] ::
          ([["1/15", "3", "slow"]] ++ ["01/15", "5.5"] :: [["01/16", "7"]])) =
        .ok ("\x7b\n" ++
          joinWith "," (List.zipWith (fun name cell => jsonPair (ReplaceAll name) cell)
            ["Date", "Distance Planned", "Pace", "Weather"] ["01/15", "5.5"]) ++ "\x7d\n") ∧
      (∀ (i : Nat) (field cell : String), ["01/15", "5.5"][i]? = some cell →
        printField "json" ["01/15", "5.5"] i field =
          jsonPair field cell ++ (if i + 1 < ["01/15", "5.5"].length then "," else ""))) ∧
    "\x7b\n" ++
        joinWith "," (List.zipWith (fun name cell => jsonPair (ReplaceAll name) cell)
          ["Date", "Distance Planned", "Pace", "Weather"] ["01/15", "5.5"]) ++ "\x7d\n" =
      "\x7b\n\"Date\": \"01/15\"\n,\"Distance Planned\": \"5.5\"\n\x7d\n" :=
  ⟨json_comma_by_row sampleDeps ⟨1, 15⟩ ["Date", "Distance Planned", "Pace", "Weather"]
    [["1/15", "3", "slow"]] ["01/15", "5.5"] [["01/16", "7"]]
    (by decide) (by decide) (by decide) (by decide) (by decide) (by decide), by decide⟩

/-! ## The column resolver -/

/-- C5, as stated, fails: with the name Date in cells 0 and 2 of row 0 the
Date column is bound to index 2, the rightmost of the two. -/
theorem duplicate_binds_rightmost :
    (resolveHeader sampleDeps ["Date", "Distance Planned", "DATE"]).foundDateCol = true ∧
      (resolveHeader sampleDeps ["Date", "Distance Planned", "DATE"]).dateCol = 2 := by
  decide

/-- C5, amended: for every header row and every recognized field, a cell that
matches the field and has no matching cell to its right is the one the field
is bound to: the resolver binds a field to its rightmost occurrence. -/
theorem resolver_binds_rightmost (deps : Deps) (header : List String) (f : Field)
    (i : Nat) (cell : String) (hcell : header[i]? = some cell)
    (hm : headerMatches deps f cell)
    (hlast : ∀ j other, i < j → header[j]? = some other → ¬ headerMatches deps f other) :
    (resolveHeader deps header).found f = true ∧ (resolveHeader deps header).col f = i := by
  have hfound : (resolveHeader deps header).found f = true :=
    (resolveHeader_found_iff deps header f).2 ⟨cell, List.getElem?_mem hcell, hm⟩
  obtain ⟨c, hc, hcm, hright⟩ := resolveHeader_col deps header f hfound
  refine ⟨hfound, ?_⟩
  rcases Nat.lt_trichotomy ((resolveHeader deps header).col f) i with hlt | heq | hgt
  · exact absurd hm (hright i cell hlt hcell)
  · exact heq
  · exact absurd hcm (hlast _ c hgt hc)

/-- The amended statement for the header row `Date, Distance Planned, DATE`. -/
theorem resolver_binds_rightmost_witness :
    (resolveHeader sampleDeps ["Date", "Distance Planned", "DATE"]).found .date = true ∧
      (resolveHeader sampleDeps ["Date", "Distance Planned", "DATE"]).col .date = 2 :=
  resolver_binds_rightmost sampleDeps ["Date", "Distance Planned", "DATE"] .date 2 "DATE"
    (by decide) (by decide)
    (by
      intro j other hj hget
      rw [List.getElem?_eq_none (by simpa using hj)] at hget
      cases hget)

/-! ## The failures of a run -/

/-- C6, as stated, fails: the first and the last row dated today have a
Distance Planned text that is a number, and the run still stops with a parse
failure, on the text `abc` of the row between them, which is neither the
first row dated today nor the row that would be printed. -/
theorem middle_row_parse_abort :
    main sampleDeps "text" ⟨1, 15⟩
        [["Date", "Distance Planned", "Plan Notes"],
         ["01/15", "5", "first"],
         ["01/15", "abc", "second"],
         ["01/15", "6", "third"]]
      = .error (.parse "abc") := by
  decide

/-- C6, amended: with both mandatory columns resolved and every data row
complete, the run stops with a parse failure exactly when some row whose Date
cell is one of the two texts of today has a Distance Planned text that does
not parse, whatever its notes cells hold; the Distance Planned text of a row
whose Date cell is not today never stops the run. -/
theorem parse_abort_iff (deps : Deps) (format : String) (now : Clock)
    (header : List String) (rows : List (List String))
    (hd : (resolveHeader deps header).foundDateCol = true)
    (hdi : (resolveHeader deps header).foundDistanceCol = true)
    (hc : ∀ row ∈ rows, complete (resolveHeader deps header) row) :
    (∃ text, main deps format now (header :: rows) = .error (.parse text)) ↔
      ∃ row ∈ rows,
        qualifies (formatPadded now) (formatPlain now) (resolveHeader deps header) row = true ∧
          unparseable deps (resolveHeader deps header) row := by
  constructor
  · rintro ⟨text, htext⟩
    by_contra hno
    have hs : ∀ row ∈ rows, scannable deps (formatPadded now) (formatPlain now)
        (resolveHeader deps header) row := by
      intro row hrow
      have hcomp := hc row hrow
      have hlt : (resolveHeader deps header).distanceCol < row.length := hcomp.2.1
      refine ⟨hcomp.1, fun hq => ⟨?_, hcomp.2.2.1, hcomp.2.2.2⟩⟩
      refine ⟨row[(resolveHeader deps header).distanceCol], List.getElem?_eq_getElem hlt, ?_⟩
      intro hnone
      exact hno ⟨row, hrow, hq, _, List.getElem?_eq_getElem hlt, hnone⟩
    rw [main_scan deps format now header rows hd hdi hs] at htext
    cases htext
  · intro hbad
    obtain ⟨text, htext⟩ := rowLoop_parse_error deps (formatPadded now) (formatPlain now)
      (resolveHeader deps header) hd hdi rows 1 (resolveHeader deps header) (by decide) rfl hc hbad
    exact ⟨text, by rw [main_resolved deps format now header rows hd hdi, htext]⟩

/-- The amended statement on a sheet whose row dated January 15 holds `abc`
and whose row dated January 14 holds `xyz`. -/
theorem parse_abort_iff_witness :
    (∃ text, main sampleDeps "text" ⟨1, 15⟩
        (["Date", "Distance Planned", "Plan Notes"] ::
          [["01/14", "xyz", "rest"], ["01/15", "abc", "Easy run"]]) = .error (.parse text)) ↔
      ∃ row ∈ [["01/14", "xyz", "rest"], ["01/15", "abc", "Easy run"]],
        qualifies (formatPadded ⟨1, 15⟩) (formatPlain ⟨1, 15⟩)
            (resolveHeader sampleDeps ["Date", "Distance Planned", "Plan Notes"]) row = true ∧
          unparseable sampleDeps
            (resolveHeader sampleDeps ["Date", "Distance Planned", "Plan Notes"]) row :=
  parse_abort_iff sampleDeps "text" ⟨1, 15⟩ ["Date", "Distance Planned", "Plan Notes"]
    [["01/14", "xyz", "rest"], ["01/15", "abc", "Easy run"]]
    (by decide) (by decide) (by decide)

/-- C7, as stated, fails: no cell of this header row is, lower-cased, the text
`distance planned` (the second cell has a line feed between the two words),
and the run does not stop with the configuration failure; it prints the row. -/
theorem line_feed_header_runs :
    (∀ cell ∈ ["Date", "Distance\nPlanned"], ¬ rawMatches sampleDeps .distance cell) ∧
    main sampleDeps "text" ⟨1, 15⟩ [["Date", "Distance\nPlanned"], ["01/15", "5.5"]]
      = .ok "Date: 01/15\nDistance Planned: 5.5\n" := by
  decide

/-- C7, amended: for every sheet whose header row has no cell that, with its
line feeds replaced by spaces and lower-cased, is `date`, or no such cell for
`distance planned`, the run stops with the configuration failure at row 0,
whatever the data rows hold, and prints nothing. -/
theorem missing_column_aborts (deps : Deps) (format : String) (now : Clock)
    (header : List String) (rows : List (List String))
    (h : (∀ cell ∈ header, ¬ headerMatches deps .date cell) ∨
      (∀ cell ∈ header, ¬ headerMatches deps .distance cell)) :
    main deps format now (header :: rows) = .error .config := by
  apply main_unresolved
  rintro ⟨hd, hdi⟩
  rcases h with h | h
  · obtain ⟨cell, hmem, hm⟩ := (resolveHeader_found_iff deps header .date).1 hd
    exact h cell hmem hm
  · obtain ⟨cell, hmem, hm⟩ := (resolveHeader_found_iff deps header .distance).1 hdi
    exact h cell hmem hm

/-- The amended statement for a header row without Distance Planned, over data
rows with a matching date, no cell at all, and a text that does not parse. -/
theorem missing_column_aborts_witness :
    main sampleDeps "json" ⟨1, 15⟩
        (["Date", "Planned", "My Notes"] :: [["01/15", "abc", "tired"], [], ["1/15", "5", "ok"]])
      = .error .config :=
  missing_column_aborts sampleDeps "json" ⟨1, 15⟩ ["Date", "Planned", "My Notes"]
    [["01/15", "abc", "tired"], [], ["1/15", "5", "ok"]] (Or.inr (by decide))

/-- C8, as stated, fails: the columns are resolved, no Date cell is December
31, the run reaches its end, and in text mode what it prints is the empty
text: no notice is written. -/
theorem no_match_prints_nothing :
    main sampleDeps "text" ⟨12, 31⟩
        [["Date", "Distance Planned", "Plan Notes", "My Notes"],
         ["01/15", "5.5", "Easy run", "Felt good"]]
      = .ok "" := by
  decide

/-- C8, amended: with both mandatory columns resolved, if every data row has a
Date cell and none of these cells is one of the two texts of today, the run
reaches its end and prints nothing in text mode and the two braces alone in
JSON mode. -/
theorem no_match_output (deps : Deps) (format : String) (now : Clock)
    (header : List String) (rows : List (List String))
    (hd : (resolveHeader deps header).foundDateCol = true)
    (hdi : (resolveHeader deps header).foundDistanceCol = true)
    (hno : ∀ row ∈ rows, ∃ cell, row[(resolveHeader deps header).dateCol]? = some cell ∧
      cell ≠ formatPadded now ∧ cell ≠ formatPlain now) :
    main deps format now (header :: rows) =
      .ok (if format = "json" then "\x7b\n\x7d\n" else "") := by
  have hq : ∀ row ∈ rows,
      qualifies (formatPadded now) (formatPlain now) (resolveHeader deps header) row = false := by
    intro row hrow
    obtain ⟨cell, hcell, h1, h2⟩ := hno row hrow
    unfold qualifies
    rw [hcell]
    simp [h1, h2]
  have hs : ∀ row ∈ rows, scannable deps (formatPadded now) (formatPlain now)
      (resolveHeader deps header) row := by
    intro row hrow
    obtain ⟨cell, hcell, _, _⟩ := hno row hrow
    refine ⟨?_, fun h => ?_⟩
    · by_contra hge
      rw [List.getElem?_eq_none (by omega)] at hcell
      cases hcell
    · rw [hq row hrow] at h; cases h
  rw [main_scan deps format now header rows hd hdi hs]
  have hnil : rows.filter
      (qualifies (formatPadded now) (formatPlain now) (resolveHeader deps header)) = [] := by
    rw [List.filter_eq_nil_iff]
    intro r hr
    rw [hq r hr]
    decide
  rw [hnil]
  exact congrArg Except.ok (fullRow_nil format _)

/-- The amended statement on December 31, in JSON mode. -/
theorem no_match_output_witness :
    main sampleDeps "json" ⟨12, 31⟩
        (["Date", "Distance Planned", "Plan Notes", "My Notes"] ::
          [["01/15", "5.5", "Easy run", "Felt good"], ["1/16"]])
      = .ok (if "json" = "json" then "\x7b\n\x7d\n" else "") :=
  no_match_output sampleDeps "json" ⟨12, 31⟩
    ["Date", "Distance Planned", "Plan Notes", "My Notes"]
    [["01/15", "5.5", "Easy run", "Felt good"], ["1/16"]] (by decide) (by decide)
    (by
      intro row hrow
      simp only [List.mem_cons, List.mem_singleton, List.not_mem_nil, or_false] at hrow
      rcases hrow with rfl | rfl
      · exact ⟨"01/15", by decide, by decide, by decide⟩
      · exact ⟨"1/16", by decide, by decide, by decide⟩)

/-! ## The Date cell of today's row -/

/-- C9: on a sheet of a resolved header row and one complete data row whose
Distance Planned text parses, the row is printed when its Date cell is exactly
the padded text `MM/DD` or exactly the plain text `M/D` of today, and no row
is printed otherwise. For March 7 the two texts are `03/07` and `3/7`; for a
month and a day of one digit the texts that pad only one of the two are
neither of them, so they do not match. -/
theorem date_cell_match (deps : Deps) (format : String) (now : Clock)
    (header row : List String) (cell : String)
    (hd : (resolveHeader deps header).foundDateCol = true)
    (hdi : (resolveHeader deps header).foundDistanceCol = true)
    (hc : complete (resolveHeader deps header) row)
    (hp : parses deps (resolveHeader deps header) row)
    (hcell : row[(resolveHeader deps header).dateCol]? = some cell) :
    main deps format now [header, row] =
        .ok (fullRow format (header.map ReplaceAll)
          (if cell = formatPadded now ∨ cell = formatPlain now then row else [])) ∧
      (formatPadded ⟨3, 7⟩ = "03/07" ∧ formatPlain ⟨3, 7⟩ = "3/7") ∧
      (now.month < 10 → now.day < 10 →
        ¬ (plain now.month ++ "/" ++ pad2 now.day = formatPadded now ∨
            plain now.month ++ "/" ++ pad2 now.day = formatPlain now) ∧
          ¬ (pad2 now.month ++ "/" ++ plain now.day = formatPadded now ∨
            pad2 now.month ++ "/" ++ plain now.day = formatPlain now)) := by
  refine ⟨?_, ⟨rfl, rfl⟩, ?_⟩
  · have hq : qualifies (formatPadded now) (formatPlain now) (resolveHeader deps header) row =
        decide (cell = formatPadded now ∨ cell = formatPlain now) := by
      unfold qualifies
      rw [hcell]
    have hs : ∀ r ∈ [row], scannable deps (formatPadded now) (formatPlain now)
        (resolveHeader deps header) r := by
      intro r hr
      rw [List.mem_singleton] at hr
      subst hr
      exact ⟨hc.1, fun _ => ⟨hp, hc.2.2.1, hc.2.2.2⟩⟩
    rw [main_scan deps format now header [row] hd hdi hs]
    by_cases h : cell = formatPadded now ∨ cell = formatPlain now
    · rw [if_pos h, List.filter_cons_of_pos (by rw [hq]; exact decide_eq_true h)]
      rfl
    · rw [if_neg h, List.filter_cons_of_neg (by rw [hq]; simpa using h)]
      rfl
  · intro hm hday
    obtain ⟨h1, h2, h3, h4⟩ := mixed_padding_ne now hm hday
    exact ⟨fun h => h.elim h1 h2, fun h => h.elim h3 h4⟩

/-- The statement on March 7 for a row whose Date cell is the half-padded text
`3/07`, together with the two half-padded texts of that day. -/
theorem date_cell_match_witness :
    (main sampleDeps "text" ⟨3, 7⟩ [["Date", "Distance Planned"], ["3/07", "4"]] =
        .ok (fullRow "text" (["Date", "Distance Planned"].map ReplaceAll)
          (if "3/07" = formatPadded ⟨3, 7⟩ ∨ "3/07" = formatPlain ⟨3, 7⟩
            then ["3/07", "4"] else [])) ∧
      (formatPadded ⟨3, 7⟩ = "03/07" ∧ formatPlain ⟨3, 7⟩ = "3/7") ∧
      ((3 : Nat) < 10 → (7 : Nat) < 10 →
        ¬ (plain 3 ++ "/" ++ pad2 7 = formatPadded ⟨3, 7⟩ ∨
            plain 3 ++ "/" ++ pad2 7 = formatPlain ⟨3, 7⟩) ∧
          ¬ (pad2 3 ++ "/" ++ plain 7 = formatPadded ⟨3, 7⟩ ∨
            pad2 3 ++ "/" ++ plain 7 = formatPlain ⟨3, 7⟩))) ∧
    plain 3 ++ "/" ++ pad2 7 = "3/07" ∧ pad2 3 ++ "/" ++ plain 7 = "03/7" :=
  ⟨date_cell_match sampleDeps "text" ⟨3, 7⟩ ["Date", "Distance Planned"] ["3/07", "4"] "3/07"
    (by decide) (by decide) (by decide) (by decide) (by decide), by decide, by decide⟩

/-! ## Line feeds in the header row -/

/-- C10, as stated, fails: the header cell `Plan\nNotes`, whose raw text
lower-cased is not `plan notes`, is resolved as the Plan Notes column. -/
theorem line_feed_cell_resolved :
    ¬ rawMatches sampleDeps .planNotes "Plan\nNotes" ∧
      (resolveHeader sampleDeps ["Date", "Distance Planned", "Plan\nNotes"]).foundPlanNotesCol
        = true ∧
      (resolveHeader sampleDeps ["Date", "Distance Planned", "Plan\nNotes"]).planNotesCol = 2 := by
  decide

/-- C10, amended: a field is found exactly when some cell of row 0, with its
line feeds replaced by spaces and then lower-cased, equals the lower-cased
field name: the replacement is made before the comparison and the same
replaced text is the name used for display. So the header cell `Plan\nNotes`
matches the Plan Notes field, under every case table. -/
theorem match_after_replacement (deps : Deps) (header : List String) (f : Field) :
    ((resolveHeader deps header).found f = true ↔
        ∃ cell ∈ header, ToLower deps (ReplaceAll cell) = ToLower deps f.name) ∧
      (resolveHeader deps header).colNames = header.map ReplaceAll ∧
      headerMatches deps .planNotes "Plan\nNotes" :=
  ⟨resolveHeader_found_iff deps header f, resolveHeader_colNames deps header, rfl⟩

/-! ## Letter case in the header row -/

theorem toLowerRune_upper (deps : Deps) (x y : Char)
    (hx : 65 ≤ x.toNat ∧ x.toNat ≤ 90) (hy : y.toNat = x.toNat + 32) :
    toLowerRune deps (if x = '\n' then ' ' else x) =
      toLowerRune deps (if y = '\n' then ' ' else y) := by
  have hxn : x ≠ '\n' := by
    intro h; rw [h] at hx; exact absurd hx.1 (by decide)
  have hyn : y ≠ '\n' := by
    intro h; rw [h] at hy
    have h10 : ('\n' : Char).toNat = 10 := rfl
    omega
  rw [if_neg hxn, if_neg hyn]
  unfold toLowerRune
  rw [if_pos (by omega), if_pos hx, if_pos (by omega), if_neg (by omega), ← hy, Char.ofNat_toNat]

/-- Runes that differ only in ASCII letter case are the same rune once line
feeds are replaced and the rune is lower-cased. -/
theorem toLowerRune_variant (deps : Deps) (x y : Char) (h : caseVariant x y = true) :
    toLowerRune deps (if x = '\n' then ' ' else x) =
      toLowerRune deps (if y = '\n' then ' ' else y) := by
  unfold caseVariant at h
  simp only [Bool.or_eq_true, Bool.and_eq_true, beq_iff_eq, decide_eq_true_eq] at h
  rcases h with (h | ⟨hx, hy⟩) | ⟨hy, hx⟩
  · rw [h]
  · exact toLowerRune_upper deps x y hx hy
  · exact (toLowerRune_upper deps y x hy hx).symm

theorem lower_variants (deps : Deps) :
    ∀ (a b : List Char), caseVariants a b = true →
      (a.map fun c => if c = '\n' then ' ' else c).map (toLowerRune deps) =
        (b.map fun c => if c = '\n' then ' ' else c).map (toLowerRune deps)
  | [], [], _ => rfl
  | [], _ :: _, h => by simp [caseVariants] at h
  | _ :: _, [], h => by simp [caseVariants] at h
  | x :: xs, y :: ys, h => by
    simp only [caseVariants, Bool.and_eq_true] at h
    simp only [List.map_cons, toLowerRune_variant deps x y h.1, lower_variants deps xs ys h.2]

/-- Cells that differ only in ASCII letter case match the same fields. -/
theorem headerMatches_variant (deps : Deps) (f : Field) (a b : String)
    (h : caseVariants a.data b.data = true) :
    headerMatches deps f a ↔ headerMatches deps f b := by
  unfold headerMatches
  have : ToLower deps (ReplaceAll a) = ToLower deps (ReplaceAll b) := by
    unfold ToLower ReplaceAll
    exact congrArg String.mk (lower_variants deps a.data b.data h)
  rw [this]

/-- The loop over the cells of row 0, run on two rows whose cells differ only in
ASCII letter case from variables that agree on a field, ends with variables
that agree on the field. -/
theorem cellLoop_variants (deps : Deps) (f : Field) :
    ∀ (cells cells2 : List String), headerVariants cells cells2 = true →
      ∀ (c : Nat) (v w : Vars) (acc acc2 : List String),
        v.found f = w.found f → v.col f = w.col f →
        (cellLoop deps 0 c cells v acc).1.found f = (cellLoop deps 0 c cells2 w acc2).1.found f ∧
          (cellLoop deps 0 c cells v acc).1.col f = (cellLoop deps 0 c cells2 w acc2).1.col f
  | [], [], _ => fun _ _ _ _ _ hf hc => ⟨hf, hc⟩
  | [], _ :: _, h => by simp [headerVariants] at h
  | _ :: _, [], h => by simp [headerVariants] at h
  | a :: as, b :: bs, h => by
    intro c v w acc acc2 hf hc
    simp only [headerVariants, Bool.and_eq_true] at h
    have hm := headerMatches_variant deps f a b h.1
    simp only [cellLoop, if_pos]
    apply cellLoop_variants deps f as bs h.2
    · rw [headerCell_found, headerCell_found, hf]
      by_cases hb : headerMatches deps f b
      · rw [if_pos hb, if_pos (hm.2 hb)]
      · rw [if_neg hb, if_neg (fun ha => hb (hm.1 ha))]
    · rw [headerCell_col, headerCell_col, hc]
      by_cases hb : headerMatches deps f b
      · rw [if_pos hb, if_pos (hm.2 hb)]
      · rw [if_neg hb, if_neg (fun ha => hb (hm.1 ha))]

/-- C11: for every header row, a row whose cells differ from it only in ASCII
letter case resolves every recognized field to the same column index and the
same found flag. -/
theorem resolver_case_insensitive (deps : Deps) (header header2 : List String)
    (h : headerVariants header header2 = true) (f : Field) :
    (resolveHeader deps header2).col f = (resolveHeader deps header).col f ∧
      (resolveHeader deps header2).found f = (resolveHeader deps header).found f := by
  unfold resolveHeader
  obtain ⟨hf, hc⟩ := cellLoop_variants deps f header header2 h 0 Vars.init Vars.init [] [] rfl rfl
  exact ⟨hc.symm, hf.symm⟩

/-- The statement for the Date field and the header rows written `Date`,
`DATE` and `date` in their second cell. -/
theorem resolver_case_insensitive_witness :
    ((resolveHeader sampleDeps ["My Notes", "DATE", "distance planned"]).col .date =
        (resolveHeader sampleDeps ["my notes", "Date", "Distance Planned"]).col .date ∧
      (resolveHeader sampleDeps ["My Notes", "DATE", "distance planned"]).found .date =
        (resolveHeader sampleDeps ["my notes", "Date", "Distance Planned"]).found .date) ∧
    ((resolveHeader sampleDeps ["MY NOTES", "date", "DISTANCE PLANNED"]).col .date =
        (resolveHeader sampleDeps ["my notes", "Date", "Distance Planned"]).col .date ∧
      (resolveHeader sampleDeps ["MY NOTES", "date", "DISTANCE PLANNED"]).found .date =
        (resolveHeader sampleDeps ["my notes", "Date", "Distance Planned"]).found .date) ∧
    (resolveHeader sampleDeps ["my notes", "Date", "Distance Planned"]).col .date = 1 :=
  ⟨resolver_case_insensitive sampleDeps ["my notes", "Date", "Distance Planned"]
      ["My Notes", "DATE", "distance planned"] (by decide) .date,
    resolver_case_insensitive sampleDeps ["my notes", "Date", "Distance Planned"]
      ["MY NOTES", "date", "DISTANCE PLANNED"] (by decide) .date,
    by decide⟩

/-! ## JSON mode -/

/-- C12: in JSON mode, for every header row and every kept row with exactly as
many cells as the header, the output is the opening brace line, one pair
`"<name>": "<cell>"` for each header field in header order with a comma between
each two consecutive pairs and none after the last, and the closing brace
line; the name is the header cell with its line feeds replaced. -/
theorem json_mode_full_row (deps : Deps) (header row : List String)
    (hlen : row.length = header.length) :
    fullRow "json" (resolveHeader deps header).colNames row =
      "\x7b\n" ++
        joinWith "," (List.zipWith (fun name cell => jsonPair (ReplaceAll name) cell) header row) ++
        "\x7d\n" := by
  rw [resolveHeader_colNames]
  unfold fullRow
  rw [if_pos rfl, if_pos rfl,
    printFields_json row (header.map ReplaceAll) 0 (by rw [List.length_map]; omega),
    List.drop_zero, List.zipWith_map_left]

/-- The statement for the header and the row of the end-to-end scenario, with
the text it gives. -/
theorem json_mode_full_row_witness :
    fullRow "json"
        (resolveHeader sampleDeps ["Date", "Distance Planned", "Plan Notes", "My Notes"]).colNames
        ["01/15", "5.5", "Easy run", "Felt good"] =
      "\x7b\n" ++
        joinWith "," (List.zipWith (fun name cell => jsonPair (ReplaceAll name) cell)
          ["Date", "Distance Planned", "Plan Notes", "My Notes"]
          ["01/15", "5.5", "Easy run", "Felt good"]) ++
        "\x7d\n" ∧
    "\x7b\n" ++
        joinWith "," (List.zipWith (fun name cell => jsonPair (ReplaceAll name) cell)
          ["Date", "Distance Planned", "Plan Notes", "My Notes"]
          ["01/15", "5.5", "Easy run", "Felt good"]) ++
        "\x7d\n" =
      "\x7b\n\"Date\": \"01/15\"\n,\"Distance Planned\": \"5.5\"\n,\"Plan Notes\": \"Easy run\"\n,\"My Notes\": \"Felt good\"\n\x7d\n" :=
  ⟨json_mode_full_row sampleDeps ["Date", "Distance Planned", "Plan Notes", "My Notes"]
    ["01/15", "5.5", "Easy run", "Felt good"] (by decide), by decide⟩

/-- C14: with no row kept, the printing block yields a text for every header
row: the empty text in text mode and the opening brace line followed by the
closing brace line in JSON mode, with no field and no comma. -/
theorem empty_row_output (deps : Deps) (header : List String) :
    fullRow "text" (resolveHeader deps header).colNames [] = "" ∧
      fullRow "json" (resolveHeader deps header).colNames [] = "\x7b\n\x7d\n" ∧
      jsonCalls [] 0 (resolveHeader deps header).colNames = [] := by
  refine ⟨?_, ?_, ?_⟩
  · rw [fullRow_nil, if_neg (by decide)]
  · rw [fullRow_nil, if_pos rfl]
  · generalize (resolveHeader deps header).colNames = names
    generalize 0 = index
    induction names generalizing index with
    | nil => rfl
    | cons field rest ih => simp [jsonCalls, jsonCallsField, ih]

/-! ## Counting the commas of JSON mode -/

theorem concatAll_append (a b : List String) :
    concatAll (a ++ b) = concatAll a ++ concatAll b := by
  induction a with
  | nil => simp [concatAll]
  | cons x rest ih => simp [concatAll, ih, String.append_assoc]

/-- The text of a pair is never the text of the comma call. -/
theorem jsonPair_ne_comma (field cell : String) : jsonPair field cell ≠ "," := by
  intro h
  have h2 := congrArg String.data h
  simp [jsonPair] at h2

theorem printField_calls (todayRow : List String) (index : Nat) (field : String) :
    printField "json" todayRow index field =
      concatAll (jsonCallsField todayRow index field) := by
  unfold printField jsonCallsField
  cases todayRow[index]? with
  | none => rfl
  | some cell =>
    simp only [if_pos True.intro]
    by_cases h : (index : Int) < (todayRow.length : Int) - 1
    · simp only [if_pos h, concatAll, jsonPair, String.append_empty]
    · simp only [if_neg h, concatAll, jsonPair, String.append_empty]

/-- What JSON mode prints is the texts of its `fmt.Printf` calls in order. -/
theorem printFields_calls (todayRow colNames : List String) :
    ∀ index, printFields "json" todayRow index colNames =
      concatAll (jsonCalls todayRow index colNames) := by
  induction colNames with
  | nil => intro index; rfl
  | cons field rest ih =>
    intro index
    simp only [printFields, jsonCalls, concatAll_append, printField_calls, ih]

/-- The number of comma calls of the printing loop from index `index` on. -/
theorem jsonCalls_count (todayRow colNames : List String) :
    ∀ index, (jsonCalls todayRow index colNames).count "," =
      min colNames.length (todayRow.length - 1 - index) := by
  induction colNames with
  | nil => intro index; simp [jsonCalls]
  | cons field rest ih =>
    intro index
    simp only [jsonCalls, List.count_append, ih, List.length_cons]
    unfold jsonCallsField
    by_cases hlt : index < todayRow.length
    · rw [List.getElem?_eq_getElem hlt]
      simp only []
      rw [List.count_cons_of_ne (jsonPair_ne_comma field _).symm]
      by_cases h : (index : Int) < (todayRow.length : Int) - 1
      · rw [if_pos h]
        simp only [List.count_singleton_self]
        omega
      · rw [if_neg h]
        simp only [List.count_nil]
        omega
    · rw [List.getElem?_eq_none (by omega)]
      simp only [List.count_nil]
      omega

/-- With a row longer than the header, JSON mode prints a comma after every
pair, the last one included. -/
theorem printFields_json_long (todayRow colNames : List String) :
    ∀ index, index + colNames.length < todayRow.length →
      printFields "json" todayRow index colNames =
        concatAll (List.zipWith (fun field cell => jsonPair field cell ++ ",")
          colNames (todayRow.drop index)) := by
  induction colNames with
  | nil => intro index _; rfl
  | cons field rest ih =>
    intro index hlen
    simp only [List.length_cons] at hlen
    have h : index < todayRow.length := by omega
    rw [List.drop_eq_getElem_cons h]
    simp only [printFields, printField, List.getElem?_eq_getElem h, ih (index + 1) (by omega),
      List.zipWith_cons_cons, concatAll]
    rw [if_pos True.intro, if_pos (by omega)]
    rfl

/-- C15: in JSON mode, for every header and every kept row, a comma is written
after the pair of index `i` exactly when `i < len row - 1`. The output is the
texts of the print calls between the two brace lines, no pair is the comma
text, and the number of comma calls is `min (len header) (len row - 1)`. A row
no longer than the header gives commas only between consecutive pairs; a row
longer than the header gives a comma after every pair, the last one included,
right before the closing brace. -/
theorem json_commas (colNames row : List String) :
    (∀ (i : Nat) (field cell : String), row[i]? = some cell →
      printField "json" row i field =
        jsonPair field cell ++ (if (i : Int) < (row.length : Int) - 1 then "," else "")) ∧
    fullRow "json" colNames row = "\x7b\n" ++ concatAll (jsonCalls row 0 colNames) ++ "\x7d\n" ∧
    (∀ field cell, jsonPair field cell ≠ ",") ∧
    (jsonCalls row 0 colNames).count "," = min colNames.length (row.length - 1) ∧
    (row.length ≤ colNames.length →
      fullRow "json" colNames row =
        "\x7b\n" ++ joinWith "," (List.zipWith jsonPair colNames row) ++ "\x7d\n") ∧
    (colNames.length < row.length →
      fullRow "json" colNames row =
        "\x7b\n" ++
          concatAll (List.zipWith (fun field cell => jsonPair field cell ++ ",") colNames row) ++
          "\x7d\n") := by
  refine ⟨?_, ?_, jsonPair_ne_comma, ?_, ?_, ?_⟩
  · intro i field cell hcell
    unfold printField
    rw [hcell]
    simp only [if_pos True.intro, jsonPair]
  · unfold fullRow
    rw [if_pos rfl, if_pos rfl, printFields_calls]
  · rw [jsonCalls_count]; rfl
  · intro h
    unfold fullRow
    rw [if_pos rfl, if_pos rfl, printFields_json row colNames 0 (by omega), List.drop_zero]
  · intro h
    unfold fullRow
    rw [if_pos rfl, if_pos rfl, printFields_json_long row colNames 0 (by omega), List.drop_zero]

/-- The statement for two header fields and a kept row of three cells: two
comma calls, the second right before the closing brace. -/
theorem json_commas_witness :
    (jsonCalls ["01/15", "5.5", "Easy run"] 0 ["Date", "Distance Planned"]).count "," = 2 ∧
    fullRow "json" ["Date", "Distance Planned"] ["01/15", "5.5", "Easy run"] =
      "\x7b\n\"Date\": \"01/15\"\n,\"Distance Planned\": \"5.5\"\n,\x7d\n" :=
  ⟨(json_commas ["Date", "Distance Planned"] ["01/15", "5.5", "Easy run"]).2.2.2.1,
    ((json_commas ["Date", "Distance Planned"] ["01/15", "5.5", "Easy run"]).2.2.2.2.2
      (by decide)).trans (by decide)⟩

/-! ## The notes of today's row -/

/-- A row dated today whose Distance Planned text parses and which has a cell
at each resolved notes column: each resolved notes variable is that cell, as it
is, and is marked found; an unresolved one is left as it was. -/
theorem checkRow_notes (deps : Deps) (today today_alt : String)
    (row ros : List String) (v : Vars)
    (hd : v.foundDateCol = true) (hdi : v.foundDistanceCol = true)
    (hq : qualifies today today_alt v row = true)
    (hp : parses deps v row)
    (hm : v.foundMyNotesCol = true → v.myNotesCol < row.length)
    (hn : v.foundPlanNotesCol = true → v.planNotesCol < row.length) :
    ∃ w, checkRow deps today today_alt row ros v = .ok w ∧
      (w.myNotes = if v.foundMyNotesCol = true then row.getD v.myNotesCol "" else v.myNotes) ∧
      (w.foundMyNotes = (v.foundMyNotesCol || v.foundMyNotes)) ∧
      (w.planNotes =
        if v.foundPlanNotesCol = true then row.getD v.planNotesCol "" else v.planNotes) ∧
      (w.foundPlanNotes = (v.foundPlanNotesCol || v.foundPlanNotes)) := by
  obtain ⟨cell, hcell, hpc⟩ := hp
  obtain ⟨f, hf⟩ := Option.ne_none_iff_exists'.1 hpc
  unfold checkRow
  unfold qualifies at hq
  rw [if_pos (by simp [hd, hdi])]
  cases hdc : row[v.dateCol]? with
  | none => rw [hdc] at hq; simp at hq
  | some dateCell =>
    rw [hdc] at hq
    simp only [decide_eq_true_eq] at hq
    simp only [if_pos hq, hcell, hf]
    by_cases h1 : v.foundMyNotesCol = true <;> by_cases h2 : v.foundPlanNotesCol = true
    · simp [readMyNotes, readPlanNotes, h1, h2, List.getElem?_eq_getElem (hm h1),
        List.getElem?_eq_getElem (hn h2), List.getD_eq_getElem?_getD]
    · simp [readMyNotes, readPlanNotes, h1, h2, List.getElem?_eq_getElem (hm h1),
        List.getD_eq_getElem?_getD]
    · simp [readMyNotes, readPlanNotes, h1, h2, List.getElem?_eq_getElem (hn h2),
        List.getD_eq_getElem?_getD]
    · simp [readMyNotes, readPlanNotes, h1, h2]

/-- A row dated today whose Distance Planned text parses and which has no cell
at a resolved notes column stops the run with the panic `index out of range`. -/
theorem checkRow_notes_panic (deps : Deps) (today today_alt : String)
    (row ros : List String) (v : Vars)
    (hd : v.foundDateCol = true) (hdi : v.foundDistanceCol = true)
    (hq : qualifies today today_alt v row = true)
    (hp : parses deps v row)
    (hmiss : (v.foundMyNotesCol = true ∧ row.length ≤ v.myNotesCol) ∨
      (v.foundPlanNotesCol = true ∧ row.length ≤ v.planNotesCol)) :
    checkRow deps today today_alt row ros v = .error .indexOutOfRange := by
  obtain ⟨cell, hcell, hpc⟩ := hp
  obtain ⟨f, hf⟩ := Option.ne_none_iff_exists'.1 hpc
  unfold checkRow
  unfold qualifies at hq
  rw [if_pos (by simp [hd, hdi])]
  cases hdc : row[v.dateCol]? with
  | none => rfl
  | some dateCell =>
    rw [hdc] at hq
    simp only [decide_eq_true_eq] at hq
    simp only [if_pos hq, hcell, hf]
    by_cases h1 : v.foundMyNotesCol = true
    · by_cases hlt : v.myNotesCol < row.length
      · rcases hmiss with ⟨_, hle⟩ | ⟨h2, hle⟩
        · omega
        · simp [readMyNotes, readPlanNotes, h1, h2, List.getElem?_eq_getElem hlt,
            List.getElem?_eq_none hle]
      · simp [readMyNotes, h1, List.getElem?_eq_none (Nat.le_of_not_lt hlt)]
    · rcases hmiss with ⟨h, _⟩ | ⟨h2, hle⟩
      · exact absurd h h1
      · simp [readMyNotes, readPlanNotes, h1, h2, List.getElem?_eq_none hle]

/-- C13: the code where the claim fails. On a sheet of a resolved header row
and one data row dated today whose Distance Planned text parses, a resolved
notes column at which the row has no cell stops the run with the panic
`index out of range`: the note is not left empty and marked not found. -/
theorem missing_notes_cell_panics (deps : Deps) (format : String) (now : Clock)
    (header row : List String)
    (hd : (resolveHeader deps header).foundDateCol = true)
    (hdi : (resolveHeader deps header).foundDistanceCol = true)
    (hq : qualifies (formatPadded now) (formatPlain now) (resolveHeader deps header) row = true)
    (hp : parses deps (resolveHeader deps header) row)
    (hmiss : ((resolveHeader deps header).foundMyNotesCol = true ∧
        row.length ≤ (resolveHeader deps header).myNotesCol) ∨
      ((resolveHeader deps header).foundPlanNotesCol = true ∧
        row.length ≤ (resolveHeader deps header).planNotesCol)) :
    main deps format now [header, row] = .error .indexOutOfRange := by
  rw [main_resolved deps format now header [row] hd hdi]
  simp only [rowLoop, rowBody_data deps _ _ 1 (by decide),
    checkRow_notes_panic deps _ _ row row _ hd hdi hq hp hmiss]

/-- The failing run: on January 15, a row dated today with a distance and no
notes cells, under a header row that has both notes columns. -/
theorem missing_notes_cell_panics_witness :
    main sampleDeps "text" ⟨1, 15⟩
        [["Date", "Distance Planned", "Plan Notes", "My Notes"], ["01/15", "5.5"]]
      = .error .indexOutOfRange :=
  missing_notes_cell_panics sampleDeps "text" ⟨1, 15⟩
    ["Date", "Distance Planned", "Plan Notes", "My Notes"] ["01/15", "5.5"]
    (by decide) (by decide) (by decide) (by decide) (by decide)

/-! ## Row 0 and today -/

theorem headerCell_foundPlannedDistance (deps : Deps) (v : Vars) (c : Nat) (cell : String) :
    (headerCell deps v c cell).foundPlannedDistance = v.foundPlannedDistance := by
  unfold headerCell
  simp only []
  split_ifs <;> rfl

theorem cellLoop_foundPlannedDistance (deps : Deps) (cells : List String) :
    ∀ (c : Nat) (v : Vars) (acc : List String),
      (cellLoop deps 0 c cells v acc).1.foundPlannedDistance = v.foundPlannedDistance := by
  induction cells with
  | nil => intro c v acc; simp [cellLoop]
  | cons x rest ih => intro c v acc; simp [cellLoop, ih, headerCell_foundPlannedDistance]

/-- A text that is `date` once its line feeds are replaced and it is lower-cased
has no line feed: lower-cased as it is, it is `date`. -/
theorem date_cell_raw (deps : Deps) (cell : String) (h : headerMatches deps .date cell) :
    ToLower deps cell = "date" := by
  unfold headerMatches at h
  rw [toLower_name] at h
  have hkeep : ∀ (l : List Char),
      (∀ c ∈ (l.map fun c => if c = '\n' then ' ' else c).map (toLowerRune deps), c ≠ ' ') →
      (l.map fun c => if c = '\n' then ' ' else c) = l := by
    intro l
    induction l with
    | nil => intro _; rfl
    | cons x rest ih =>
      intro hall
      simp only [List.map_cons, List.mem_cons, forall_eq_or_imp] at hall
      have hx : x ≠ '\n' := by
        intro hx
        rw [if_pos hx] at hall
        exact hall.1 (by simp [toLowerRune])
      rw [List.map_cons, if_neg hx, ih hall.2]
  have hdata := congrArg String.data h
  simp only [ToLower, ReplaceAll] at hdata
  have hsame := hkeep cell.data (by
    rw [hdata]
    intro c hc
    simp only [List.mem_cons, List.mem_singleton, List.not_mem_nil, or_false] at hc
    rcases hc with rfl | rfl | rfl | rfl <;> decide)
  unfold ToLower
  rw [hsame] at hdata
  rw [hdata]

/-- C16: for every header row that resolves the Date and Distance Planned
columns and every calendar date, the header's own cell at the resolved Date
index lower-cases to `date` and is neither the padded nor the plain text of
today; so the turn of the loop for row 0 ends with no row kept and with no
planned distance found, that is, without a parse of its Distance Planned
cell. -/
theorem header_row_never_today (deps : Deps) (now : Clock) (header : List String)
    (hd : (resolveHeader deps header).foundDateCol = true)
    (hdi : (resolveHeader deps header).foundDistanceCol = true) :
    ∃ cell, header[(resolveHeader deps header).dateCol]? = some cell ∧
      ToLower deps cell = "date" ∧
      cell ≠ formatPadded now ∧ cell ≠ formatPlain now ∧
      qualifies (formatPadded now) (formatPlain now) (resolveHeader deps header) header = false ∧
      rowBody deps (formatPadded now) (formatPlain now) 0 header Vars.init =
        .ok (resolveHeader deps header) ∧
      (resolveHeader deps header).todayRow = [] ∧
      (resolveHeader deps header).foundPlannedDistance = false := by
  obtain ⟨cell, hcell, hm, _⟩ := resolveHeader_col deps header .date hd
  have hcell2 : header[(resolveHeader deps header).dateCol]? = some cell := hcell
  have hne := header_date_not_today deps now cell hm
  refine ⟨cell, hcell2, date_cell_raw deps cell hm, fun h => hne (Or.inl h),
    fun h => hne (Or.inr h), ?_, rowBody_header_resolved deps now header hd hdi,
    resolveHeader_todayRow deps header, ?_⟩
  · unfold qualifies
    rw [hcell2]
    simpa using hne
  · unfold resolveHeader
    rw [cellLoop_foundPlannedDistance]
    rfl

/-- The statement for the header row of the end-to-end scenario on January 15. -/
theorem header_row_never_today_witness :
    ∃ cell,
      ["Date", "Distance Planned", "Plan Notes", "My Notes"][(resolveHeader sampleDeps
        ["Date", "Distance Planned", "Plan Notes", "My Notes"]).dateCol]? = some cell ∧
      ToLower sampleDeps cell = "date" ∧
      cell ≠ formatPadded ⟨1, 15⟩ ∧ cell ≠ formatPlain ⟨1, 15⟩ ∧
      qualifies (formatPadded ⟨1, 15⟩) (formatPlain ⟨1, 15⟩)
        (resolveHeader sampleDeps ["Date", "Distance Planned", "Plan Notes", "My Notes"])
        ["Date", "Distance Planned", "Plan Notes", "My Notes"] = false ∧
      rowBody sampleDeps (formatPadded ⟨1, 15⟩) (formatPlain ⟨1, 15⟩) 0
          ["Date", "Distance Planned", "Plan Notes", "My Notes"] Vars.init =
        .ok (resolveHeader sampleDeps ["Date", "Distance Planned", "Plan Notes", "My Notes"]) ∧
      (resolveHeader sampleDeps ["Date", "Distance Planned", "Plan Notes", "My Notes"]).todayRow
        = [] ∧
      (resolveHeader sampleDeps
        ["Date", "Distance Planned", "Plan Notes", "My Notes"]).foundPlannedDistance = false :=
  header_row_never_today sampleDeps ⟨1, 15⟩
    ["Date", "Distance Planned", "Plan Notes", "My Notes"] (by decide) (by decide)

end ErnieSheets
